import Mathlib

/-
Verification of the gesture-recognition core of FistFirst-Learn.

The development shallowly embeds the per-frame logic of `handTracking.ts`
(landmark stabilizer, velocity tracker, pinch classifier) and
`playingField.ts` together with its `part_000` variant (gesture classifiers
and the field-move state machine).  JavaScript numbers are modelled as exact
rationals; every comparison `Math.sqrt e < c` of the source (with `c > 0`)
is embedded as the equivalent comparison `e < c^2` of the squared distance,
except where a claim is explicitly about the Euclidean distance itself, in
which case `Real.sqrt` is used and the equivalence is proved.
-/

set_option maxHeartbeats 1000000

namespace FFL

/-- A 3D point in screen space (pixels), as produced by the stabilizer and
consumed by all gesture classifiers. -/
structure Pt where
  x : ℚ
  y : ℚ
  z : ℚ
deriving DecidableEq

/-- Squared 2D Euclidean distance.  The source computes
`Math.sqrt(dx*dx + dy*dy)` and compares it against a positive threshold `c`;
this embedding compares `distSq` against `c^2`, which is equivalent. -/
def distSq (a b : Pt) : ℚ := (a.x - b.x) ^ 2 + (a.y - b.y) ^ 2

/-- `StoredLandmark` of handTracking.ts: screen-space position, confidence
in [0,1], and the timestamp of the frame that last wrote the entry. -/
structure StoredLandmark where
  x : ℚ
  y : ℚ
  z : ℚ
  confidence : ℚ
  timestamp : ℚ
deriving DecidableEq

/-- One raw MediaPipe landmark as handed to
`processLandmarksWithPersistence`: normalized x, y (nominally in [0,1]) and
relative depth z. -/
structure RawLandmark where
  x : ℚ
  y : ℚ
  z : ℚ
deriving DecidableEq

/-- `this.smoothingFactor = 0.2` (handTracking.ts line 70). -/
def smoothingFactor : ℚ := 1 / 5

/-- `this.landmarkPersistence = 400` ms (handTracking.ts line 72). -/
def landmarkPersistence : ℚ := 400

/-- The visibility test of `processLandmarksWithPersistence`
(handTracking.ts lines 248-249):
`x >= -0.1 && x <= 1.1 && y >= -0.1 && y <= 1.1`. -/
def rawIsVisible (l : RawLandmark) : Prop :=
  -(1 / 10) ≤ l.x ∧ l.x ≤ 11 / 10 ∧ -(1 / 10) ≤ l.y ∧ l.y ≤ 11 / 10

instance (l : RawLandmark) : Decidable (rawIsVisible l) := by
  unfold rawIsVisible; infer_instance

/-- Body of the per-index loop of `HandTracker.processLandmarksWithPersistence`
(handTracking.ts lines 242-285) for a single landmark: given the stored entry
for this index (if any), the raw landmark, the renderer width and height and
the frame timestamp, it returns the reported screen-space point and the new
stored entry.  The three cases are exactly those of the source: visible
(with exponential blending against a recent stored entry, confidence 1.0),
invisible but recently stored (position reused, confidence decayed by
`max 0 (1 - age/400)`), and the raw fallback with confidence 0.1. -/
def processOne (prev : Option StoredLandmark) (raw : RawLandmark) (w h t : ℚ) :
    Pt × StoredLandmark :=
  let rawX := raw.x * w
  let rawY := raw.y * h
  let rawZ := raw.z * w
  if rawIsVisible raw then
    match prev with
    | some p =>
      if t - p.timestamp < landmarkPersistence then
        let blend := smoothingFactor * p.confidence
        let x := p.x * blend + rawX * (1 - blend)
        let y := p.y * blend + rawY * (1 - blend)
        let z := p.z * blend + rawZ * (1 - blend)
        (⟨x, y, z⟩, ⟨x, y, z, 1, t⟩)
      else (⟨rawX, rawY, rawZ⟩, ⟨rawX, rawY, rawZ, 1, t⟩)
    | none => (⟨rawX, rawY, rawZ⟩, ⟨rawX, rawY, rawZ, 1, t⟩)
  else
    match prev with
    | some p =>
      if t - p.timestamp < landmarkPersistence then
        let decay := max 0 (1 - (t - p.timestamp) / landmarkPersistence)
        (⟨p.x, p.y, p.z⟩, ⟨p.x, p.y, p.z, p.confidence * decay, t⟩)
      else (⟨rawX, rawY, rawZ⟩, ⟨rawX, rawY, rawZ, 1 / 10, t⟩)
    | none => (⟨rawX, rawY, rawZ⟩, ⟨rawX, rawY, rawZ, 1 / 10, t⟩)

/-- The full stabilizer pass: `processOne` mapped over the landmark indices,
with the stored entry for index `i` looked up in the previous stored list
(`undefined`, i.e. `none`, when absent), exactly as the source loop does. -/
def processLandmarksWithPersistence (prev : List StoredLandmark)
    (raws : List RawLandmark) (w h t : ℚ) : List Pt × List StoredLandmark :=
  let rs := raws.enum.map fun p => processOne (prev.get? p.1) p.2 w h t
  (rs.map Prod.fst, rs.map Prod.snd)

/-- Iterating the stabilizer over a run of frames in which the landmark is
not visible, starting from stored entry `s`: returns the list of reported
points (one per frame) and the list of stored entries after each frame. -/
def absentRun (w h : ℚ) (s : StoredLandmark) :
    List (RawLandmark × ℚ) → List Pt × List StoredLandmark
  | [] => ([], [])
  | f :: rest =>
    let r := processOne (some s) f.1 w h f.2
    let rr := absentRun w h r.2 rest
    (r.1 :: rr.1, r.2 :: rr.2)

/-- The stored entry left behind after an `absentRun`. -/
def absentFinal (w h : ℚ) (s : StoredLandmark) :
    List (RawLandmark × ℚ) → StoredLandmark
  | [] => s
  | f :: rest => absentFinal w h ((processOne (some s) f.1 w h f.2).2) rest

/-- Product of the per-frame decay factors `1 - gap/400`, where each gap is
measured from the previous frame's timestamp (starting at `t0`). -/
def decayProd (t0 : ℚ) : List ℚ → ℚ
  | [] => 1
  | t :: ts => (1 - (t - t0) / 400) * decayProd t ts

/-! ### Velocity tracker (handTracking.ts, `calculateVelocityWithHistory`) -/

/-- One sample of the per-hand `VelocityHistory`: palm position and frame
timestamp. -/
structure VSample where
  x : ℚ
  y : ℚ
  timestamp : ℚ
deriving DecidableEq

/-- Velocity between two history samples (handTracking.ts lines 345-351 and
the loop body at lines 358-366): displacement over the elapsed time clamped
below at 1 ms, scaled by 16 to a nominal 60 Hz unit. -/
def pairVel (a b : VSample) : ℚ × ℚ :=
  ((b.x - a.x) / max 1 (b.timestamp - a.timestamp) * 16,
   (b.y - a.y) / max 1 (b.timestamp - a.timestamp) * 16)

/-- Weight of the consecutive pair with 0-based index `i` in a retained
history `h`: the source's `weight = i / history.length` with `i` running
from 1, i.e. `(i+1)/h.length` for the 0-based pair index. -/
def pairWeight (h : List VSample) (i : ℕ) : ℚ := ((i : ℚ) + 1) / (h.length : ℚ)

/-- `totalWeight` accumulated by the smoothing loop. -/
def totalWeightOf (h : List VSample) : ℚ :=
  ((h.zip h.tail).enum.map fun p => pairWeight h p.1).sum

/-- `smoothedX` accumulated by the smoothing loop. -/
def smoothedSumX (h : List VSample) : ℚ :=
  ((h.zip h.tail).enum.map fun p => (pairVel p.2.1 p.2.2).1 * pairWeight h p.1).sum

/-- `smoothedY` accumulated by the smoothing loop. -/
def smoothedSumY (h : List VSample) : ℚ :=
  ((h.zip h.tail).enum.map fun p => (pairVel p.2.1 p.2.2).2 * pairWeight h p.1).sum

/-- The smoothed ("throw") velocity computed from a retained history
(handTracking.ts lines 353-372), including the `totalWeight > 0` guard. -/
def smoothedVelocityOf (h : List VSample) : ℚ × ℚ :=
  (if 0 < totalWeightOf h then smoothedSumX h / totalWeightOf h else 0,
   if 0 < totalWeightOf h then smoothedSumY h / totalWeightOf h else 0)

/-- Modelled from the spec's words, for refinement comparison with
`smoothedVelocityOf`: "the sum over consecutive pairs of (pair velocity ×
weight) divided by the sum of the weights, where pair i (1-indexed from
oldest) has weight i/historyLength". -/
def specSmoothedVelocity (h : List VSample) : ℚ × ℚ :=
  (smoothedSumX h / totalWeightOf h, smoothedSumY h / totalWeightOf h)

/-- Modelled from the spec's words: the plain unweighted average of the same
consecutive-pair velocities, used as the comparison point of the recency-bias
property. -/
def unweightedAvgVelocity (h : List VSample) : ℚ × ℚ :=
  (((h.zip h.tail).map fun p => (pairVel p.1 p.2).1).sum / ((h.zip h.tail).length : ℚ),
   ((h.zip h.tail).map fun p => (pairVel p.1 p.2).2).sum / ((h.zip h.tail).length : ℚ))

/-- Squared magnitude of a 2D velocity. -/
def normSq (v : ℚ × ℚ) : ℚ := v.1 ^ 2 + v.2 ^ 2

/-- A synthetic history whose early motion is large and whose most recent
pair is exactly zero: samples at 0 ms, 16 ms and 32 ms. -/
def recencyHist : List VSample := [⟨0, 0, 0⟩, ⟨100, 0, 16⟩, ⟨100, 0, 32⟩]

/-- The history retained by a velocity-tracker call (handTracking.ts lines
329-338): append the current sample, drop samples at least 150 ms old, keep
the last 8 (`slice(-8)`). -/
def retainedHistory (history : List VSample) (pos : ℚ × ℚ) (t : ℚ) : List VSample :=
  let h1 := history ++ [⟨pos.1, pos.2, t⟩]
  let h2 := h1.filter fun s => decide (t - s.timestamp < 150)
  if 8 < h2.length then h2.drop (h2.length - 8) else h2

/-- `HandTracker.calculateVelocityWithHistory` (handTracking.ts lines
321-375): returns the new retained history plus the instantaneous and
smoothed velocities, with both zero when fewer than 2 samples remain. -/
def calculateVelocityWithHistory (history : List VSample) (pos : ℚ × ℚ) (t : ℚ) :
    List VSample × ((ℚ × ℚ) × (ℚ × ℚ)) :=
  let h3 := retainedHistory history pos t
  if h3.length < 2 then (h3, ((0, 0), (0, 0)))
  else
    (h3, (pairVel (h3.getD (h3.length - 2) ⟨0, 0, 0⟩) (h3.getD (h3.length - 1) ⟨0, 0, 0⟩),
          smoothedVelocityOf h3))

/-! ### Pinch classifier (handTracking.ts, `detectPinchPartial`) -/

/-- Whether the stored-landmark table backs landmark index `i` with
confidence above 0.3 (`thumbStored && thumbStored.confidence > 0.3`);
`stored = none` models an absent `previousLandmarks` entry for the hand. -/
def storedUsable (stored : Option (List StoredLandmark)) (i : ℕ) : Bool :=
  match stored with
  | none => false
  | some st =>
    match st.get? i with
    | none => false
    | some e => decide (3 / 10 < e.confidence)

/-- Usability of a fingertip for partial pinch detection: directly available
this frame (`x !== 0 || y !== 0` on the stabilized landmark) or backed by a
sufficiently confident stored entry. -/
def usableTip (lm : Fin 21 → Pt) (stored : Option (List StoredLandmark))
    (i : Fin 21) : Bool :=
  (decide ((lm i).x ≠ 0) || decide ((lm i).y ≠ 0)) || storedUsable stored i.val

/-- Squared 2D thumb-tip-to-index-tip distance (landmarks 4 and 8). -/
def thumbIndexDistSq (lm : Fin 21 → Pt) : ℚ := distSq (lm 4) (lm 8)

/-- `isPinching` of `detectPinchPartial` (handTracking.ts lines 409-452):
when both tips are usable, distance < 70 px (embedded as squared distance
< 4900); otherwise false. -/
def partialPinchFlag (lm : Fin 21 → Pt) (stored : Option (List StoredLandmark)) : Bool :=
  if usableTip lm stored 4 && usableTip lm stored 8 then
    decide (thumbIndexDistSq lm < 4900)
  else false

/-- `pinchStrength` of `detectPinchPartial`: when both tips are usable,
`clamp01(1 - distance/160)` with the true Euclidean distance; otherwise 0. -/
noncomputable def partialPinchStrength (lm : Fin 21 → Pt)
    (stored : Option (List StoredLandmark)) : ℝ :=
  if usableTip lm stored 4 && usableTip lm stored 8 then
    max 0 (min 1 (1 - Real.sqrt ((thumbIndexDistSq lm : ℚ) : ℝ) / 160))
  else 0

/-! ### Hand snapshots and gesture classifiers -/

/-- Handedness label assigned by the detector. -/
inductive Handedness where
  | left
  | right
deriving DecidableEq

/-- The part of a `HandData` snapshot consumed by the playing-field logic:
stabilized screen landmarks, derived palm center, handedness and the
already-computed pinch/fist flags. -/
structure HandData where
  screenLandmarks : Fin 21 → Pt
  palmCenter : Pt
  handedness : Handedness
  isPinching : Bool
  isFist : Bool

/-- Average knuckle y (`knuckleAvgY` in `isUpwardFacingFist`): mean y of the
index/middle/ring/pinky MCPs (landmarks 5, 9, 13, 17). -/
def knuckleAvgY (lm : Fin 21 → Pt) : ℚ :=
  ((lm 5).y + (lm 9).y + (lm 13).y + (lm 17).y) / 4

/-- `Math.max(...mcpYValues) - Math.min(...mcpYValues)` over the four MCPs. -/
def mcpYRangeOf (lm : Fin 21 → Pt) : ℚ :=
  max (max (lm 5).y (lm 9).y) (max (lm 13).y (lm 17).y) -
    min (min (lm 5).y (lm 9).y) (min (lm 13).y (lm 17).y)

/-- z-range over the four MCPs (check 8 of the strict palm classifier). -/
def mcpZRangeOf (lm : Fin 21 → Pt) : ℚ :=
  max (max (lm 5).z (lm 9).z) (max (lm 13).z (lm 17).z) -
    min (min (lm 5).z (lm 9).z) (min (lm 13).z (lm 17).z)

/-- Number of non-thumb fingertips (8, 12, 16, 20) within 80 px of the palm
center (squared distance < 6400). -/
def curledFingerCount (lm : Fin 21 → Pt) (pc : Pt) : ℕ :=
  (if distSq (lm 8) pc < 6400 then 1 else 0) +
  (if distSq (lm 12) pc < 6400 then 1 else 0) +
  (if distSq (lm 16) pc < 6400 then 1 else 0) +
  (if distSq (lm 20) pc < 6400 then 1 else 0)

/-- Number of non-thumb fingertips farther than 80 px from the palm center. -/
def extendedFingerCount (lm : Fin 21 → Pt) (pc : Pt) : ℕ :=
  (if 6400 < distSq (lm 8) pc then 1 else 0) +
  (if 6400 < distSq (lm 12) pc then 1 else 0) +
  (if 6400 < distSq (lm 16) pc then 1 else 0) +
  (if 6400 < distSq (lm 20) pc then 1 else 0)

/-- `PlayingField.isUpwardFacingFist` (playingField.ts lines 141-214): fist
flag, wrist more than 20 px below the knuckle average, level MCPs
(y-range < 60), at least 3 curled fingertips, thumb within 100 px of the
palm center. -/
def isUpwardFacingFist (hand : HandData) : Prop :=
  hand.isFist = true ∧
  knuckleAvgY hand.screenLandmarks + 20 < (hand.screenLandmarks 0).y ∧
  mcpYRangeOf hand.screenLandmarks < 60 ∧
  3 ≤ curledFingerCount hand.screenLandmarks hand.palmCenter ∧
  distSq (hand.screenLandmarks 4) hand.palmCenter < 10000

instance (hand : HandData) : Decidable (isUpwardFacingFist hand) := by
  unfold isUpwardFacingFist; infer_instance

/-- `PlayingField.isOpenHand` (playingField.ts lines 219-251): not a fist and
at least 3 extended fingertips. -/
def isOpenHand (hand : HandData) : Prop :=
  hand.isFist = false ∧
  3 ≤ extendedFingerCount hand.screenLandmarks hand.palmCenter

instance (hand : HandData) : Decidable (isOpenHand hand) := by
  unfold isOpenHand; infer_instance

/-- Per-finger test of check 4 of the strict palm classifier (part_000 lines
234-264): pointing up by a 40 px margin, joints monotonically ordered in y,
tip farther than 90 px from the palm (squared > 8100), and the PIP dot
product negative. -/
def fingerStraightCheck (lm : Fin 21 → Pt) (pc : Pt) (m p d t : Fin 21) : Prop :=
  (lm t).y < (lm m).y - 40 ∧
  ((lm p).y < (lm m).y ∧ (lm d).y < (lm p).y ∧ (lm t).y < (lm d).y) ∧
  8100 < distSq (lm t) pc ∧
  ((lm m).x - (lm p).x) * ((lm t).x - (lm p).x) +
    ((lm m).y - (lm p).y) * ((lm t).y - (lm p).y) < 0

instance (lm : Fin 21 → Pt) (pc : Pt) (m p d t : Fin 21) :
    Decidable (fingerStraightCheck lm pc m p d t) := by
  unfold fingerStraightCheck; infer_instance

/-- `straightFingers` counter over the four non-thumb fingers. -/
def straightFingerCount (lm : Fin 21 → Pt) (pc : Pt) : ℕ :=
  (if fingerStraightCheck lm pc 5 6 7 8 then 1 else 0) +
  (if fingerStraightCheck lm pc 9 10 11 12 then 1 else 0) +
  (if fingerStraightCheck lm pc 13 14 15 16 then 1 else 0) +
  (if fingerStraightCheck lm pc 17 18 19 20 then 1 else 0)

/-- Mean MCP depth (`palmBaseZ`). -/
def palmBaseZAvg (lm : Fin 21 → Pt) : ℚ :=
  ((lm 5).z + (lm 9).z + (lm 13).z + (lm 17).z) / 4

/-- Mean fingertip depth (`fingertipZ`). -/
def fingertipZAvg (lm : Fin 21 → Pt) : ℚ :=
  ((lm 8).z + (lm 12).z + (lm 16).z + (lm 20).z) / 4

/-- Check 3 of the strict palm classifier: thumb tip on the side consistent
with the detected handedness (`isRightHand ? thumbTip.x > pinkyMcp.x :
thumbTip.x < pinkyMcp.x`). -/
def thumbSideOk (hand : HandData) : Prop :=
  if hand.handedness = Handedness.right then
    (hand.screenLandmarks 17).x < (hand.screenLandmarks 4).x
  else
    (hand.screenLandmarks 4).x < (hand.screenLandmarks 17).x

instance (hand : HandData) : Decidable (thumbSideOk hand) := by
  unfold thumbSideOk; infer_instance

/-- `PlayingField.isValidOpenPalm` of the part_000 variant (lines 163-317):
the conjunction of the guard and all eight checks, in source order. -/
def isValidOpenPalm (hand : HandData) : Prop :=
  hand.isPinching = false ∧ hand.isFist = false ∧
  hand.palmCenter.y + 30 < (hand.screenLandmarks 0).y ∧
  fingertipZAvg hand.screenLandmarks < palmBaseZAvg hand.screenLandmarks + 10 ∧
  thumbSideOk hand ∧
  4 ≤ straightFingerCount hand.screenLandmarks hand.palmCenter ∧
  4900 < distSq (hand.screenLandmarks 4) hand.palmCenter ∧
  70 < |(hand.screenLandmarks 5).x - (hand.screenLandmarks 17).x| ∧
  mcpYRangeOf hand.screenLandmarks < 50 ∧
  mcpZRangeOf hand.screenLandmarks < 40

instance (hand : HandData) : Decidable (isValidOpenPalm hand) := by
  unfold isValidOpenPalm; infer_instance

/-- The lock gesture of the part_000 variant: `hand.isFist`. -/
def isFistFlag (hand : HandData) : Prop := hand.isFist = true

instance (hand : HandData) : Decidable (isFistFlag hand) := by
  unfold isFistFlag; infer_instance

/-- Reflection of a point about the vertical axis `x = c/2`
(`x ↦ c − x`, y and z unchanged). -/
def mirrorPt (c : ℚ) (p : Pt) : Pt := ⟨c - p.x, p.y, p.z⟩

/-- Left/right swap. -/
def swapHandedness : Handedness → Handedness
  | Handedness.left => Handedness.right
  | Handedness.right => Handedness.left

/-- A hand snapshot mirrored about a vertical axis, with handedness swapped
and the gesture flags untouched. -/
def mirrorHand (c : ℚ) (hand : HandData) : HandData :=
  { screenLandmarks := fun i => mirrorPt c (hand.screenLandmarks i),
    palmCenter := mirrorPt c hand.palmCenter,
    handedness := swapHandedness hand.handedness,
    isPinching := hand.isPinching,
    isFist := hand.isFist }

/-! ### Playing-field state machine (playingField.ts and the part_000
variant; their `update` bodies are identical except for the start/lock
gesture classifiers, which are therefore parameters of `updateCore`) -/

/-- `PlayingFieldBounds`. -/
structure Bounds where
  x : ℚ
  y : ℚ
  width : ℚ
  height : ℚ
  right : ℚ
  bottom : ℚ
deriving DecidableEq

/-- `FieldMode`. -/
inductive FieldMode where
  | normal
  | movePending
  | moving
deriving DecidableEq

/-- The mutable state of a `PlayingField` object. -/
structure FieldState where
  bounds : Bounds
  screenWidth : ℚ
  screenHeight : ℚ
  mode : FieldMode
  palmHoldStartTime : ℚ
  isVisible : Bool
  moveProgress : ℚ
  lastPalmPosition : Option (ℚ × ℚ)
deriving DecidableEq

/-- `this.defaultSizeRatio = 0.8`. -/
def defaultSizeRatio : ℚ := 4 / 5

/-- `this.palmHoldDuration = 3000` ms. -/
def palmHoldDuration : ℚ := 3000

/-- `calculateDefaultBounds`: centered rectangle covering 80% of the screen. -/
def calculateDefaultBounds (sw sh : ℚ) : Bounds :=
  { x := (sw - sw * defaultSizeRatio) / 2,
    y := (sh - sh * defaultSizeRatio) / 2,
    width := sw * defaultSizeRatio,
    height := sh * defaultSizeRatio,
    right := (sw - sw * defaultSizeRatio) / 2 + sw * defaultSizeRatio,
    bottom := (sh - sh * defaultSizeRatio) / 2 + sh * defaultSizeRatio }

/-- The state right after the constructor. -/
def initState (sw sh : ℚ) : FieldState :=
  { bounds := calculateDefaultBounds sw sh, screenWidth := sw, screenHeight := sh,
    mode := FieldMode.normal, palmHoldStartTime := 0, isVisible := true,
    moveProgress := 0, lastPalmPosition := none }

/-- `hands.find(h => h.handedness === 'Right') || hands[0]`. -/
def dominantHand (hands : List HandData) : Option HandData :=
  (hands.find? fun hd => decide (hd.handedness = Handedness.right)).orElse
    fun _ => hands.head?

/-- The re-center-and-clamp block of the `moving` branch: bounds centered on
the palm, then `x` clamped to `[0, screenWidth - width]` (same for `y`), and
the computed `right`/`bottom` refreshed (`updateComputedBounds`). -/
def movedBounds (s : FieldState) (palm : Pt) : Bounds :=
  { x := max 0 (min (s.screenWidth - s.bounds.width) (palm.x - s.bounds.width / 2)),
    y := max 0 (min (s.screenHeight - s.bounds.height) (palm.y - s.bounds.height / 2)),
    width := s.bounds.width,
    height := s.bounds.height,
    right := max 0 (min (s.screenWidth - s.bounds.width) (palm.x - s.bounds.width / 2))
      + s.bounds.width,
    bottom := max 0 (min (s.screenHeight - s.bounds.height) (palm.y - s.bounds.height / 2))
      + s.bounds.height }

/-- `PlayingField.update` (playingField.ts lines 254-330 and part_000 lines
320-395), parameterized by the start gesture `S` and the lock gesture `L`:
the two source variants differ only in instantiating `S`/`L` with
`isUpwardFacingFist`/`isOpenHand` resp. `isValidOpenPalm`/`isFistFlag`.
Returns the new state together with the list of bounds emitted to the
`onBoundsChanged` callback during the call (empty or a singleton).  In the
`move-pending` branch the source sets progress and `lastPalmPosition` first
and then overrides mode and progress on confirmation; the two writes are
collapsed into the single resulting record. -/
def updateCore (S L : HandData → Prop) [DecidablePred S] [DecidablePred L]
    (s : FieldState) (hands : List HandData) (currentTime : ℚ) :
    FieldState × List Bounds :=
  if s.isVisible = true then
    match dominantHand hands with
    | none =>
      match s.mode with
      | FieldMode.movePending =>
        ({ s with mode := FieldMode.normal, moveProgress := 0 }, [])
      | _ => (s, [])
    | some hand =>
      match s.mode with
      | FieldMode.normal =>
        if S hand then
          ({ s with mode := FieldMode.movePending, palmHoldStartTime := currentTime,
                    lastPalmPosition := some (hand.palmCenter.x, hand.palmCenter.y) }, [])
        else (s, [])
      | FieldMode.movePending =>
        if S hand then
          if palmHoldDuration ≤ currentTime - s.palmHoldStartTime then
            ({ s with mode := FieldMode.moving, moveProgress := 1,
                      lastPalmPosition := some (hand.palmCenter.x, hand.palmCenter.y) }, [])
          else
            ({ s with
                moveProgress := min 1 ((currentTime - s.palmHoldStartTime) / palmHoldDuration),
                lastPalmPosition := some (hand.palmCenter.x, hand.palmCenter.y) }, [])
        else ({ s with mode := FieldMode.normal, moveProgress := 0 }, [])
      | FieldMode.moving =>
        if L hand then
          ({ s with mode := FieldMode.normal, moveProgress := 0 }, [s.bounds])
        else
          ({ s with bounds := movedBounds s hand.palmCenter,
                    lastPalmPosition := some (hand.palmCenter.x, hand.palmCenter.y) }, [])
  else (s, [])

/-- `PlayingField.resize`: keep the same relative position and size, then
refresh `right`/`bottom` and notify. -/
def resize (s : FieldState) (w h : ℚ) : FieldState × List Bounds :=
  ({ s with
      screenWidth := w,
      screenHeight := h,
      bounds :=
        { x := s.bounds.x / s.screenWidth * w,
          y := s.bounds.y / s.screenHeight * h,
          width := s.bounds.width / s.screenWidth * w,
          height := s.bounds.height / s.screenHeight * h,
          right := s.bounds.x / s.screenWidth * w + s.bounds.width / s.screenWidth * w,
          bottom := s.bounds.y / s.screenHeight * h + s.bounds.height / s.screenHeight * h } },
   [{ x := s.bounds.x / s.screenWidth * w,
      y := s.bounds.y / s.screenHeight * h,
      width := s.bounds.width / s.screenWidth * w,
      height := s.bounds.height / s.screenHeight * h,
      right := s.bounds.x / s.screenWidth * w + s.bounds.width / s.screenWidth * w,
      bottom := s.bounds.y / s.screenHeight * h + s.bounds.height / s.screenHeight * h }])

/-- `PlayingField.resetToDefault`: 80% centered bounds, mode `normal`,
progress 0, notify. -/
def resetToDefault (s : FieldState) : FieldState × List Bounds :=
  ({ s with
      bounds := calculateDefaultBounds s.screenWidth s.screenHeight,
      mode := FieldMode.normal,
      moveProgress := 0 },
   [calculateDefaultBounds s.screenWidth s.screenHeight])

/-- `PlayingField.setVisible`. -/
def setVisible (s : FieldState) (v : Bool) : FieldState × List Bounds :=
  if v = true then resetToDefault { s with isVisible := v }
  else ({ s with isVisible := v }, [])

/-- A sequence of `update` calls: final state plus the concatenation of all
emitted bounds. -/
def runFrames (S L : HandData → Prop) [DecidablePred S] [DecidablePred L]
    (s : FieldState) : List (List HandData × ℚ) → FieldState × List Bounds
  | [] => (s, [])
  | f :: rest =>
    let r := updateCore S L s f.1 f.2
    let rr := runFrames S L r.1 rest
    (rr.1, r.2 ++ rr.2)

/-- The list of states of a run: the state before the first frame followed by
the state after each frame. -/
def stateTrace (S L : HandData → Prop) [DecidablePred S] [DecidablePred L]
    (s : FieldState) : List (List HandData × ℚ) → List FieldState
  | [] => [s]
  | f :: rest => s :: stateTrace S L (updateCore S L s f.1 f.2).1 rest

/-- Timestamp of the last frame of a run (default `t` for an empty run). -/
def lastTimeFrom (t : ℚ) (frames : List (List HandData × ℚ)) : ℚ :=
  frames.foldl (fun _ f => f.2) t

/-- External operations a host can perform on a `PlayingField`. -/
inductive FieldOp where
  | upd (hands : List HandData) (t : ℚ)
  | resizeOp (w h : ℚ)
  | resetOp

/-- State reached after one operation (emitted bounds discarded). -/
def applyOp (S L : HandData → Prop) [DecidablePred S] [DecidablePred L]
    (s : FieldState) : FieldOp → FieldState
  | FieldOp.upd hands t => (updateCore S L s hands t).1
  | FieldOp.resizeOp w h => (resize s w h).1
  | FieldOp.resetOp => (resetToDefault s).1

/-- Resize operations carry positive viewport dimensions. -/
def opDimsPos : FieldOp → Prop
  | FieldOp.resizeOp w h => 0 < w ∧ 0 < h
  | _ => True

/-- States reachable from a constructor call with positive screen dimensions
by any sequence of update/resize/resetToDefault calls (resizes likewise with
positive dimensions). -/
def ReachableFrom (S L : HandData → Prop) [DecidablePred S] [DecidablePred L]
    (s : FieldState) : Prop :=
  ∃ (w h : ℚ) (ops : List FieldOp), 0 < w ∧ 0 < h ∧ (∀ op ∈ ops, opDimsPos op) ∧
    s = ops.foldl (applyOp S L) (initState w h)

/-- The frame invariant carried through every reachable state: positive
screen, bounds sized at exactly 80% of the screen, field visible. -/
def GoodDims (s : FieldState) : Prop :=
  0 < s.screenWidth ∧ 0 < s.screenHeight ∧
  s.bounds.width = defaultSizeRatio * s.screenWidth ∧
  s.bounds.height = defaultSizeRatio * s.screenHeight ∧
  s.isVisible = true

/-! ### Concrete hand snapshots used to instantiate proved theorems -/

/-- Landmarks of a synthetic upward-facing fist: MCPs well above the wrist,
all tips and the thumb at the palm center. -/
def fistLandmarks : Fin 21 → Pt := fun i =>
  if i = 5 ∨ i = 9 ∨ i = 13 ∨ i = 17 then ⟨0, -100, 0⟩ else ⟨0, 0, 0⟩

/-- A synthetic right hand making an upward-facing fist. -/
def fistHand : HandData :=
  { screenLandmarks := fistLandmarks, palmCenter := ⟨0, 0, 0⟩,
    handedness := Handedness.right, isPinching := false, isFist := true }

/-- Landmarks of a synthetic open hand: all four fingertips far from the
palm center. -/
def openLandmarks : Fin 21 → Pt := fun i =>
  if i = 8 ∨ i = 12 ∨ i = 16 ∨ i = 20 then ⟨200, 0, 0⟩ else ⟨0, 0, 0⟩

/-- A synthetic right open hand (the lock gesture of playingField.ts). -/
def openHand : HandData :=
  { screenLandmarks := openLandmarks, palmCenter := ⟨0, 0, 0⟩,
    handedness := Handedness.right, isPinching := false, isFist := false }

/-- Landmarks of a synthetic strict front-facing open palm: four vertical,
straight, spread fingers, thumb extended to the right, wrist below. -/
def palmLandmarks : Fin 21 → Pt := fun i =>
  if i = 0 then ⟨0, 100, 0⟩
  else if i = 4 then ⟨100, 20, 0⟩
  else if i = 5 then ⟨60, 0, 0⟩
  else if i = 9 then ⟨20, 0, 0⟩
  else if i = 13 then ⟨-20, 0, 0⟩
  else if i = 17 then ⟨-60, 0, 0⟩
  else if i = 6 then ⟨60, -40, 0⟩
  else if i = 10 then ⟨20, -40, 0⟩
  else if i = 14 then ⟨-20, -40, 0⟩
  else if i = 18 then ⟨-60, -40, 0⟩
  else if i = 7 then ⟨60, -80, 0⟩
  else if i = 11 then ⟨20, -80, 0⟩
  else if i = 15 then ⟨-20, -80, 0⟩
  else if i = 19 then ⟨-60, -80, 0⟩
  else if i = 8 then ⟨60, -120, 0⟩
  else if i = 12 then ⟨20, -120, 0⟩
  else if i = 16 then ⟨-20, -120, 0⟩
  else if i = 20 then ⟨-60, -120, 0⟩
  else ⟨0, 0, 0⟩

/-- A synthetic right hand in the strict "STOP" palm pose. -/
def palmHand : HandData :=
  { screenLandmarks := palmLandmarks, palmCenter := ⟨0, 0, 0⟩,
    handedness := Handedness.right, isPinching := false, isFist := false }

/-- A fist whose palm center lies far outside the viewport (drives the
clamping property). -/
def farHand : HandData :=
  { screenLandmarks := fun _ => ⟨0, 0, 0⟩, palmCenter := ⟨99999, -50000, 0⟩,
    handedness := Handedness.right, isPinching := false, isFist := true }

/-- Landmarks with thumb tip at (30,40) and index tip at (60,80): both
directly available, 50 px apart. -/
def pinchLandmarks : Fin 21 → Pt := fun i =>
  if i = 4 then ⟨30, 40, 0⟩
  else if i = 8 then ⟨60, 80, 0⟩
  else ⟨0, 0, 0⟩

/-- A playing field on a 1000×800 screen driven into `moving` mode by an
upward fist held at t = 0 and t = 3000. -/
def reachedMoving : FieldState :=
  [FieldOp.upd [fistHand] 0, FieldOp.upd [fistHand] 3000].foldl
    (applyOp isUpwardFacingFist isOpenHand) (initState 1000 800)

/-! ### Lemmas and claim theorems -/

/-- The invisible-but-recent branch of `processOne`, solved explicitly:
position is reused unchanged, confidence is multiplied by `1 - age/400`,
and the stored timestamp becomes the current frame's timestamp. -/
lemma processOne_invisible (s : StoredLandmark) (raw : RawLandmark) (w h t : ℚ)
    (hv : ¬ rawIsVisible raw) (hrec : t - s.timestamp < 400)
    (hnn : 0 ≤ 1 - (t - s.timestamp) / 400) :
    processOne (some s) raw w h t =
      (⟨s.x, s.y, s.z⟩,
       ⟨s.x, s.y, s.z, s.confidence * (1 - (t - s.timestamp) / 400), t⟩) := by
  unfold processOne landmarkPersistence
  rw [if_neg hv]
  dsimp only
  rw [if_pos hrec, max_eq_right hnn]

/-- Any visible frame stores confidence exactly 1. -/
lemma processOne_visible_confidence (st : Option StoredLandmark)
    (raw : RawLandmark) (w h t : ℚ) (hv : rawIsVisible raw) :
    ((processOne st raw w h t).2).confidence = 1 := by
  unfold processOne
  rw [if_pos hv]
  cases st with
  | none => rfl
  | some p =>
    dsimp only
    by_cases hrec : t - p.timestamp < landmarkPersistence
    · rw [if_pos hrec]
    · rw [if_neg hrec]

/-- Run-level behaviour of the stabilizer over an invisible streak that stays
inside the persistence window: the reported and stored positions persist
unchanged, the stored confidence is the starting confidence times the product
of the per-gap decay factors, and (for strictly increasing timestamps and
positive starting confidence) the stored confidence strictly decreases. -/
lemma absentRun_spec (w h : ℚ) :
    ∀ (frames : List (RawLandmark × ℚ)) (s : StoredLandmark),
      (∀ f ∈ frames, ¬ rawIsVisible f.1) →
      List.Chain' (· ≤ ·) (s.timestamp :: frames.map Prod.snd) →
      (∀ f ∈ frames, f.2 - s.timestamp < 400) →
      (absentRun w h s frames).1 = frames.map (fun _ => (⟨s.x, s.y, s.z⟩ : Pt)) ∧
      (∀ e ∈ (absentRun w h s frames).2, e.x = s.x ∧ e.y = s.y ∧ e.z = s.z) ∧
      (absentFinal w h s frames).confidence
        = s.confidence * decayProd s.timestamp (frames.map Prod.snd) ∧
      (0 < s.confidence → List.Chain' (· < ·) (s.timestamp :: frames.map Prod.snd) →
        List.Chain' (· > ·)
          ((s :: (absentRun w h s frames).2).map StoredLandmark.confidence)) := by
  intro frames
  induction frames with
  | nil =>
    intro s _ _ _
    refine ⟨rfl, ?_, ?_, ?_⟩
    · intro e he
      simp [absentRun] at he
    · simp [absentFinal, decayProd]
    · intro _ _
      simp [absentRun]
  | cons f rest ih =>
    intro s hinv hmono hwin
    have hv : ¬ rawIsVisible f.1 := hinv f (List.mem_cons_self f rest)
    have hrec : f.2 - s.timestamp < 400 := hwin f (List.mem_cons_self f rest)
    simp only [List.map_cons, List.chain'_cons] at hmono
    have hts : s.timestamp ≤ f.2 := hmono.1
    have hdiv : (f.2 - s.timestamp) / 400 < 1 := by
      rw [div_lt_one (by norm_num : (0:ℚ) < 400)]
      exact hrec
    have hfac : 0 < 1 - (f.2 - s.timestamp) / 400 := by linarith
    have heq := processOne_invisible s f.1 w h f.2 hv hrec (le_of_lt hfac)
    have hinv' : ∀ g ∈ rest, ¬ rawIsVisible g.1 :=
      fun g hg => hinv g (List.mem_cons_of_mem f hg)
    have hwin' : ∀ g ∈ rest, g.2 - f.2 < 400 := by
      intro g hg
      have := hwin g (List.mem_cons_of_mem f hg)
      linarith
    obtain ⟨ih1, ih2, ih3, ih4⟩ :=
      ih ⟨s.x, s.y, s.z, s.confidence * (1 - (f.2 - s.timestamp) / 400), f.2⟩
        hinv' hmono.2 hwin'
    refine ⟨?_, ?_, ?_, ?_⟩
    · simp only [absentRun, heq, List.map_cons]
      rw [ih1]
    · simp only [absentRun, heq]
      intro e he
      rcases List.mem_cons.mp he with h1 | h2
      · subst h1
        exact ⟨rfl, rfl, rfl⟩
      · exact ih2 e h2
    · simp only [absentFinal, heq, List.map_cons]
      rw [ih3, decayProd]
      ring
    · intro hc hstrict
      simp only [List.map_cons, List.chain'_cons] at hstrict
      have hgap : 0 < f.2 - s.timestamp := by linarith [hstrict.1]
      have hfac1 : 1 - (f.2 - s.timestamp) / 400 < 1 := by
        have : 0 < (f.2 - s.timestamp) / 400 :=
          div_pos hgap (by norm_num)
        linarith
      simp only [absentRun, heq, List.map_cons, List.chain'_cons]
      refine ⟨?_, ?_⟩
      · exact mul_lt_of_lt_one_right hc hfac1
      · exact ih4 (mul_pos hc hfac) hstrict.2

/-- The raw landmark used to model an off-screen (invisible) observation. -/
lemma badRaw_invisible : ¬ rawIsVisible ⟨2, 0, 0⟩ := by
  intro hv
  have := hv.2.1
  norm_num at this

/-- C2 (amended): for a landmark stored at the last visible frame as `s`
(with confidence 1 by the visible branch) and then not visible on frames
within the 400 ms persistence window, the stabilizer reports exactly the
stored position at every absent frame; the stored confidence is multiplied by
`1 - gap/400` at each absent frame, where `gap` is the time elapsed since the
previous frame, hence over a multi-frame absence it equals the starting
confidence times the product of these factors (not the claimed single factor
`1 - age/400`, which is correct only for the first absent frame); under
strictly increasing timestamps and positive starting confidence the stored
confidence strictly decreases; and the first visible frame resets the stored
confidence to 1.0. -/
theorem C2_stabilizer_decay (w h : ℚ) (s : StoredLandmark)
    (frames : List (RawLandmark × ℚ))
    (hinv : ∀ f ∈ frames, ¬ rawIsVisible f.1)
    (hmono : List.Chain' (· ≤ ·) (s.timestamp :: frames.map Prod.snd))
    (hwin : ∀ f ∈ frames, f.2 - s.timestamp < 400) :
    (absentRun w h s frames).1 = frames.map (fun _ => (⟨s.x, s.y, s.z⟩ : Pt)) ∧
    (∀ e ∈ (absentRun w h s frames).2, e.x = s.x ∧ e.y = s.y ∧ e.z = s.z) ∧
    (absentFinal w h s frames).confidence
      = s.confidence * decayProd s.timestamp (frames.map Prod.snd) ∧
    (0 < s.confidence → List.Chain' (· < ·) (s.timestamp :: frames.map Prod.snd) →
      List.Chain' (· > ·)
        ((s :: (absentRun w h s frames).2).map StoredLandmark.confidence)) ∧
    (∀ (st : Option StoredLandmark) (rv : RawLandmark) (t' : ℚ), rawIsVisible rv →
      ((processOne st rv w h t').2).confidence = 1) := by
  obtain ⟨h1, h2, h3, h4⟩ := absentRun_spec w h frames s hinv hmono hwin
  exact ⟨h1, h2, h3, h4, fun st rv t' hv => processOne_visible_confidence st rv w h t' hv⟩

/-- Witness for C2_stabilizer_decay: a landmark stored at (5,6,7) with
confidence 1 at t = 0, then invisible at t = 100 and t = 200; the positions
persist and the final confidence is (3/4)·(3/4) = 9/16. -/
theorem C2_stabilizer_decay_witness :
    (absentRun 1 1 ⟨5, 6, 7, 1, 0⟩ [(⟨2, 0, 0⟩, 100), (⟨2, 0, 0⟩, 200)]).1
      = [⟨5, 6, 7⟩, ⟨5, 6, 7⟩] ∧
    (absentFinal 1 1 ⟨5, 6, 7, 1, 0⟩ [(⟨2, 0, 0⟩, 100), (⟨2, 0, 0⟩, 200)]).confidence
      = 9 / 16 := by
  obtain ⟨h1, _, h3, _, _⟩ :=
    C2_stabilizer_decay 1 1 ⟨5, 6, 7, 1, 0⟩ [(⟨2, 0, 0⟩, 100), (⟨2, 0, 0⟩, 200)]
      (by
        intro f hf
        rcases List.mem_cons.mp hf with rfl | hf2
        · exact badRaw_invisible
        · rcases List.mem_singleton.mp hf2 with rfl
          exact badRaw_invisible)
      (by
        simp only [List.map_cons, List.map_nil]
        exact List.chain'_cons.mpr ⟨by norm_num, List.chain'_cons.mpr
          ⟨by norm_num, List.chain'_singleton _⟩⟩)
      (by
        intro f hf
        rcases List.mem_cons.mp hf with rfl | hf2
        · norm_num
        · rcases List.mem_singleton.mp hf2 with rfl
          norm_num)
  constructor
  · rw [h1]
    simp
  · rw [h3]
    norm_num [decayProd]

/-- C2 counterexample: a landmark visible at t = 0 (stored with confidence 1)
then invisible at t = 100 and t = 200 keeps its stored position, but the
stored confidence is (1 − 100/400)·(1 − 100/400) = 9/16, not the
1 × (1 − 200/400) = 1/2 demanded by the claim's linear-in-total-age formula. -/
theorem C2_decay_counterexample :
    (absentFinal 1 1 ⟨5, 6, 7, 1, 0⟩ [(⟨2, 0, 0⟩, 100), (⟨2, 0, 0⟩, 200)]).confidence
      = 9 / 16 ∧
    ¬ ((absentFinal 1 1 ⟨5, 6, 7, 1, 0⟩ [(⟨2, 0, 0⟩, 100), (⟨2, 0, 0⟩, 200)]).confidence
        = (1 : ℚ) * (1 - (200 - 0) / 400)) := by
  have hval : (absentFinal 1 1 ⟨5, 6, 7, 1, 0⟩
      [(⟨2, 0, 0⟩, 100), (⟨2, 0, 0⟩, 200)]).confidence = 9 / 16 := by
    norm_num [absentFinal, processOne, rawIsVisible, landmarkPersistence, max_def]
  refine ⟨hval, ?_⟩
  rw [hval]
  norm_num

/-- The summed weights of the smoothing loop are positive whenever the
retained history holds at least 2 samples. -/
lemma totalWeightOf_pos (h : List VSample) (hn : 2 ≤ h.length) :
    0 < totalWeightOf h := by
  have hlen : 0 < ((h.zip h.tail).enum.map fun p => pairWeight h p.1).length := by
    simp [List.length_zip, List.length_tail]
    omega
  apply List.sum_pos
  · intro x hx
    obtain ⟨p, _, rfl⟩ := List.mem_map.mp hx
    unfold pairWeight
    apply div_pos
    · positivity
    · exact_mod_cast (by omega : 0 < h.length)
  · exact List.length_pos.mp hlen

/-- C7: whenever the retained history holds at least 2 samples, the smoothed
velocity returned by the velocity tracker equals the linearly-recency-weighted
average of the consecutive-pair velocities (weighted sum over summed weights,
pair `i` weighted `i/historyLength`, pair velocity = displacement over the
elapsed time clamped below at 1 ms and scaled by 16); the weights strictly
increase with recency, and on the synthetic history `recencyHist` (large
early motion, zero most recent pair) the smoothed velocity magnitude is
strictly below that of the unweighted average of the same pair velocities. -/
theorem C7_smoothed_velocity (hist : List VSample) (pos : ℚ × ℚ) (t : ℚ)
    (hn : 2 ≤ (retainedHistory hist pos t).length) :
    (calculateVelocityWithHistory hist pos t).2.2
      = specSmoothedVelocity (retainedHistory hist pos t) ∧
    (∀ i j : ℕ, i < j →
      pairWeight (retainedHistory hist pos t) i
        < pairWeight (retainedHistory hist pos t) j) ∧
    normSq (smoothedVelocityOf recencyHist)
      < normSq (unweightedAvgVelocity recencyHist) := by
  have hw : 0 < totalWeightOf (retainedHistory hist pos t) := totalWeightOf_pos _ hn
  refine ⟨?_, ?_, ?_⟩
  · unfold calculateVelocityWithHistory
    rw [if_neg (by omega)]
    dsimp only
    unfold smoothedVelocityOf specSmoothedVelocity
    rw [if_pos hw, if_pos hw]
  · intro i j hij
    unfold pairWeight
    have hlen : (0 : ℚ) < ((retainedHistory hist pos t).length : ℚ) := by
      exact_mod_cast (by omega : 0 < (retainedHistory hist pos t).length)
    rw [div_lt_div_iff₀ hlen hlen]
    have hcast : ((i : ℚ) + 1) < ((j : ℚ) + 1) := by exact_mod_cast Nat.succ_lt_succ hij
    exact mul_lt_mul_of_pos_right hcast hlen
  · norm_num [smoothedVelocityOf, totalWeightOf, smoothedSumX, smoothedSumY,
      pairWeight, pairVel, recencyHist, List.enum, max_def, unweightedAvgVelocity, normSq]

/-- Witness for C7_smoothed_velocity: a tracker call on a 2-sample history at
t = 32 retains 3 samples and its smoothed output equals the weighted-average
formula. -/
theorem C7_smoothed_velocity_witness :
    2 ≤ (retainedHistory [⟨0, 0, 0⟩, ⟨100, 0, 16⟩] (100, 0) 32).length ∧
    (calculateVelocityWithHistory [⟨0, 0, 0⟩, ⟨100, 0, 16⟩] (100, 0) 32).2.2
      = specSmoothedVelocity (retainedHistory [⟨0, 0, 0⟩, ⟨100, 0, 16⟩] (100, 0) 32) := by
  have hn : 2 ≤ (retainedHistory [⟨0, 0, 0⟩, ⟨100, 0, 16⟩] (100, 0) 32).length := by
    norm_num [retainedHistory, List.filter]
  exact ⟨hn, (C7_smoothed_velocity [⟨0, 0, 0⟩, ⟨100, 0, 16⟩] (100, 0) 32 hn).1⟩

/-- C8 (amended): a velocity-tracker call on a key with 0 recorded samples
returns both velocities exactly (0,0); a call on a key with 1 recorded sample
returns (0,0) when that sample is at least 150 ms old at the call (it is
pruned, leaving fewer than 2 retained samples) — but not in general: a fresh
single sample yields a real velocity (see the counterexample). -/
theorem C8_velocity_insufficient :
    (∀ (pos : ℚ × ℚ) (t : ℚ),
      (calculateVelocityWithHistory [] pos t).2 = ((0, 0), (0, 0))) ∧
    (∀ (s : VSample) (pos : ℚ × ℚ) (t : ℚ), 150 ≤ t - s.timestamp →
      (calculateVelocityWithHistory [s] pos t).2 = ((0, 0), (0, 0))) := by
  constructor
  · intro pos t
    simp +decide [calculateVelocityWithHistory, retainedHistory, List.filter, sub_self]
  · intro s pos t hstale
    have hcond : ¬ ((decide (t - s.timestamp < 150)) = true) := by
      simp only [decide_eq_true_eq, not_lt]
      linarith
    unfold calculateVelocityWithHistory retainedHistory
    simp +decide [List.filter, hcond, sub_self]

/-- Witness for C8_velocity_insufficient: an empty history and a 200 ms old
single sample both yield zero velocities. -/
theorem C8_velocity_insufficient_witness :
    (calculateVelocityWithHistory [] (3, 4) 200).2 = ((0, 0), (0, 0)) ∧
    (calculateVelocityWithHistory [⟨1, 2, 0⟩] (3, 4) 200).2 = ((0, 0), (0, 0)) :=
  ⟨C8_velocity_insufficient.1 (3, 4) 200,
   C8_velocity_insufficient.2 ⟨1, 2, 0⟩ (3, 4) 200 (by norm_num)⟩

/-- C8 counterexample: a key holding exactly one recorded sample (position
(0,0) at t = 0) yields instantaneous velocity (16, 0) ≠ (0, 0) when called
with position (16, 0) at t = 16: the call appends the current sample before
the fewer-than-2 check, so a fresh single recorded sample does not degrade
to zero. -/
theorem C8_velocity_counterexample :
    (calculateVelocityWithHistory [⟨0, 0, 0⟩] (16, 0) 16).2.1 = ((16 : ℚ), (0 : ℚ)) ∧
    ((16 : ℚ), (0 : ℚ)) ≠ ((0 : ℚ), (0 : ℚ)) := by
  constructor
  · norm_num [calculateVelocityWithHistory, retainedHistory, List.filter, pairVel, max_def]
  · intro hEq
    have := congrArg Prod.fst hEq
    norm_num at this

/-- C6: whenever both the thumb tip and the index tip are usable (directly
available this frame or backed by a stored landmark with confidence > 0.3),
`isPinching` holds iff the 2D Euclidean distance between the stabilized tips
is strictly below 70 px, and `pinchStrength` equals
`clamp01(1 − distance/160)`; whenever either tip is unusable, `isPinching`
is false and `pinchStrength` is 0. -/
theorem C6_pinch_contract (lm : Fin 21 → Pt) (stored : Option (List StoredLandmark)) :
    (usableTip lm stored 4 = true → usableTip lm stored 8 = true →
      ((partialPinchFlag lm stored = true ↔
          Real.sqrt ((thumbIndexDistSq lm : ℚ) : ℝ) < 70) ∧
        partialPinchStrength lm stored
          = max 0 (min 1 (1 - Real.sqrt ((thumbIndexDistSq lm : ℚ) : ℝ) / 160)))) ∧
    (¬ (usableTip lm stored 4 = true ∧ usableTip lm stored 8 = true) →
      partialPinchFlag lm stored = false ∧ partialPinchStrength lm stored = 0) := by
  constructor
  · intro h4 h8
    have hcond : (usableTip lm stored 4 && usableTip lm stored 8) = true := by
      rw [h4, h8]
      rfl
    constructor
    · unfold partialPinchFlag
      rw [if_pos hcond, decide_eq_true_eq,
        Real.sqrt_lt' (by norm_num : (0 : ℝ) < 70),
        show ((70 : ℝ) ^ 2) = ((4900 : ℚ) : ℝ) from by norm_num]
      exact Rat.cast_lt.symm
    · unfold partialPinchStrength
      rw [if_pos hcond]
  · intro hnand
    have hcond : ¬ ((usableTip lm stored 4 && usableTip lm stored 8) = true) := by
      simp only [Bool.and_eq_true]
      exact hnand
    constructor
    · unfold partialPinchFlag
      rw [if_neg hcond]
    · unfold partialPinchStrength
      rw [if_neg hcond]

/-- Witness for C6_pinch_contract: thumb tip (30,40) and index tip (60,80)
are both usable and 50 px apart, so the pinch flag is set and the strength is
1 − 50/160 = 11/16. -/
theorem C6_pinch_contract_witness :
    partialPinchFlag pinchLandmarks none = true ∧
    partialPinchStrength pinchLandmarks none = 11 / 16 := by
  have h4 : usableTip pinchLandmarks none 4 = true := by decide
  have h8 : usableTip pinchLandmarks none 8 = true := by decide
  obtain ⟨hiff, hstr⟩ := (C6_pinch_contract pinchLandmarks none).1 h4 h8
  have hdsq : thumbIndexDistSq pinchLandmarks = 2500 := by
    norm_num +decide [thumbIndexDistSq, distSq, pinchLandmarks]
  have hsqrt : Real.sqrt ((thumbIndexDistSq pinchLandmarks : ℚ) : ℝ) = 50 := by
    rw [hdsq, show (((2500 : ℚ) : ℚ) : ℝ) = (50 : ℝ) ^ 2 from by norm_num,
      Real.sqrt_sq (by norm_num : (0 : ℝ) ≤ 50)]
  constructor
  · exact hiff.mpr (by rw [hsqrt]; norm_num)
  · rw [hstr, hsqrt]
    norm_num [max_def, min_def]

/-- Mirroring both points leaves the squared 2D distance unchanged. -/
lemma distSq_mirror (c : ℚ) (a b : Pt) :
    distSq (mirrorPt c a) (mirrorPt c b) = distSq a b := by
  unfold distSq mirrorPt
  dsimp only
  ring

/-- Mirroring preserves the per-finger straightness test. -/
lemma fingerStraightCheck_mirror (c : ℚ) (lm : Fin 21 → Pt) (pc : Pt)
    (m p d t : Fin 21) :
    fingerStraightCheck (fun i => mirrorPt c (lm i)) (mirrorPt c pc) m p d t ↔
      fingerStraightCheck lm pc m p d t := by
  unfold fingerStraightCheck
  have hy : ∀ u : Pt, (mirrorPt c u).y = u.y := fun _ => rfl
  have hd : distSq (mirrorPt c (lm t)) (mirrorPt c pc) = distSq (lm t) pc :=
    distSq_mirror c (lm t) pc
  have hdot :
      ((mirrorPt c (lm m)).x - (mirrorPt c (lm p)).x)
          * ((mirrorPt c (lm t)).x - (mirrorPt c (lm p)).x)
        = ((lm m).x - (lm p).x) * ((lm t).x - (lm p).x) := by
    unfold mirrorPt
    dsimp only
    ring
  simp only [hy, hd, hdot]

/-- Mirroring preserves the straight-finger counter. -/
lemma straightFingerCount_mirrorHand (c : ℚ) (hand : HandData) :
    straightFingerCount (mirrorHand c hand).screenLandmarks
        (mirrorHand c hand).palmCenter
      = straightFingerCount hand.screenLandmarks hand.palmCenter := by
  unfold straightFingerCount
  simp only [show (mirrorHand c hand).screenLandmarks
      = fun i => mirrorPt c (hand.screenLandmarks i) from rfl,
    show (mirrorHand c hand).palmCenter = mirrorPt c hand.palmCenter from rfl,
    fingerStraightCheck_mirror]

/-- Mirroring preserves the thumb-tip-to-palm distance check. -/
lemma thumbTipDist_mirrorHand (c : ℚ) (hand : HandData) :
    distSq ((mirrorHand c hand).screenLandmarks 4) (mirrorHand c hand).palmCenter
      = distSq (hand.screenLandmarks 4) hand.palmCenter :=
  distSq_mirror c (hand.screenLandmarks 4) hand.palmCenter

/-- Mirroring preserves the index-to-pinky MCP spread. -/
lemma fingerSpread_mirrorHand (c : ℚ) (hand : HandData) :
    |((mirrorHand c hand).screenLandmarks 5).x
        - ((mirrorHand c hand).screenLandmarks 17).x|
      = |(hand.screenLandmarks 5).x - (hand.screenLandmarks 17).x| := by
  have h1 : ((mirrorHand c hand).screenLandmarks 5).x
      - ((mirrorHand c hand).screenLandmarks 17).x
      = (hand.screenLandmarks 17).x - (hand.screenLandmarks 5).x := by
    show (c - (hand.screenLandmarks 5).x) - (c - (hand.screenLandmarks 17).x) = _
    ring
  rw [h1, abs_sub_comm]

/-- Mirroring swaps handedness, so the handedness-conditioned thumb-side
check is preserved. -/
lemma thumbSideOk_mirror (c : ℚ) (hand : HandData) :
    thumbSideOk (mirrorHand c hand) ↔ thumbSideOk hand := by
  unfold thumbSideOk
  have h4 : ((mirrorHand c hand).screenLandmarks 4).x = c - (hand.screenLandmarks 4).x := rfl
  have h17 : ((mirrorHand c hand).screenLandmarks 17).x = c - (hand.screenLandmarks 17).x := rfl
  have hswap : (mirrorHand c hand).handedness = swapHandedness hand.handedness := rfl
  rw [h4, h17, hswap]
  cases hh : hand.handedness with
  | left =>
    rw [show swapHandedness Handedness.left = Handedness.right from rfl,
      if_pos (show Handedness.right = Handedness.right from rfl),
      if_neg (show ¬ Handedness.left = Handedness.right from by simp)]
    constructor <;> intro <;> linarith
  | right =>
    rw [show swapHandedness Handedness.right = Handedness.left from rfl,
      if_neg (show ¬ Handedness.left = Handedness.right from by simp),
      if_pos (show Handedness.right = Handedness.right from rfl)]
    constructor <;> intro <;> linarith

/-- C9: reflecting all 21 stabilized landmarks and the derived palm center
about a vertical axis (`x ↦ c − x`, y and z unchanged) while swapping
handedness Left↔Right leaves the strict front-facing open-palm classifier's
verdict unchanged. -/
theorem C9_palm_mirror_symmetry (c : ℚ) (hand : HandData) :
    isValidOpenPalm (mirrorHand c hand) ↔ isValidOpenPalm hand := by
  unfold isValidOpenPalm
  rw [thumbSideOk_mirror, straightFingerCount_mirrorHand, thumbTipDist_mirrorHand,
    fingerSpread_mirrorHand]
  simp only [mirrorHand, mirrorPt, fingertipZAvg, palmBaseZAvg, mcpYRangeOf, mcpZRangeOf]

/-! ### Step lemmas for the field-move state machine -/

/-- `update` is a no-op while the field is hidden. -/
lemma updateCore_hidden (S L : HandData → Prop) [DecidablePred S] [DecidablePred L]
    (s : FieldState) (hands : List HandData) (t : ℚ) (hv : s.isVisible = false) :
    updateCore S L s hands t = (s, []) := by
  unfold updateCore
  rw [if_neg (by rw [hv]; exact Bool.false_ne_true)]

/-- No dominant hand while `move-pending`: cancel. -/
lemma updateCore_noHand_pending (S L : HandData → Prop) [DecidablePred S] [DecidablePred L]
    (s : FieldState) (hands : List HandData) (t : ℚ) (hv : s.isVisible = true)
    (hdom : dominantHand hands = none) (hm : s.mode = FieldMode.movePending) :
    updateCore S L s hands t
      = ({ s with mode := FieldMode.normal, moveProgress := 0 }, []) := by
  unfold updateCore
  rw [if_pos hv, hdom]
  dsimp only
  rw [hm]

/-- No dominant hand while `moving`: freeze (state unchanged, no emission). -/
lemma updateCore_noHand_moving (S L : HandData → Prop) [DecidablePred S] [DecidablePred L]
    (s : FieldState) (hands : List HandData) (t : ℚ) (hv : s.isVisible = true)
    (hdom : dominantHand hands = none) (hm : s.mode = FieldMode.moving) :
    updateCore S L s hands t = (s, []) := by
  unfold updateCore
  rw [if_pos hv, hdom]
  dsimp only
  rw [hm]

/-- `normal` + start gesture: enter `move-pending`, record start time and palm. -/
lemma updateCore_normal_start (S L : HandData → Prop) [DecidablePred S] [DecidablePred L]
    (s : FieldState) (hands : List HandData) (t : ℚ) (hand : HandData)
    (hv : s.isVisible = true) (hdom : dominantHand hands = some hand)
    (hm : s.mode = FieldMode.normal) (hS : S hand) :
    updateCore S L s hands t
      = ({ s with
            mode := FieldMode.movePending,
            palmHoldStartTime := t,
            lastPalmPosition := some (hand.palmCenter.x, hand.palmCenter.y) }, []) := by
  unfold updateCore
  rw [if_pos hv, hdom]
  dsimp only
  rw [hm]
  dsimp only
  rw [if_pos hS]

/-- `move-pending` + start gesture, hold confirmed (elapsed ≥ 3000 ms):
enter `moving` with progress 1. -/
lemma updateCore_pending_confirm (S L : HandData → Prop) [DecidablePred S] [DecidablePred L]
    (s : FieldState) (hands : List HandData) (t : ℚ) (hand : HandData)
    (hv : s.isVisible = true) (hdom : dominantHand hands = some hand)
    (hm : s.mode = FieldMode.movePending) (hS : S hand)
    (hdur : palmHoldDuration ≤ t - s.palmHoldStartTime) :
    updateCore S L s hands t
      = ({ s with
            mode := FieldMode.moving,
            moveProgress := 1,
            lastPalmPosition := some (hand.palmCenter.x, hand.palmCenter.y) }, []) := by
  unfold updateCore
  rw [if_pos hv, hdom]
  dsimp only
  rw [hm]
  dsimp only
  rw [if_pos hS, if_pos hdur]

/-- `move-pending` + start gesture, hold not yet confirmed: stay pending with
updated progress. -/
lemma updateCore_pending_hold (S L : HandData → Prop) [DecidablePred S] [DecidablePred L]
    (s : FieldState) (hands : List HandData) (t : ℚ) (hand : HandData)
    (hv : s.isVisible = true) (hdom : dominantHand hands = some hand)
    (hm : s.mode = FieldMode.movePending) (hS : S hand)
    (hdur : ¬ palmHoldDuration ≤ t - s.palmHoldStartTime) :
    updateCore S L s hands t
      = ({ s with
            moveProgress := min 1 ((t - s.palmHoldStartTime) / palmHoldDuration),
            lastPalmPosition := some (hand.palmCenter.x, hand.palmCenter.y) }, []) := by
  unfold updateCore
  rw [if_pos hv, hdom]
  dsimp only
  rw [hm]
  dsimp only
  rw [if_pos hS, if_neg hdur]

/-- `move-pending`, start gesture lost: cancel with no partial credit. -/
lemma updateCore_pending_cancel (S L : HandData → Prop) [DecidablePred S] [DecidablePred L]
    (s : FieldState) (hands : List HandData) (t : ℚ) (hand : HandData)
    (hv : s.isVisible = true) (hdom : dominantHand hands = some hand)
    (hm : s.mode = FieldMode.movePending) (hS : ¬ S hand) :
    updateCore S L s hands t
      = ({ s with mode := FieldMode.normal, moveProgress := 0 }, []) := by
  unfold updateCore
  rw [if_pos hv, hdom]
  dsimp only
  rw [hm]
  dsimp only
  rw [if_neg hS]

/-- `normal`, start gesture absent: nothing happens. -/
lemma updateCore_normal_idle (S L : HandData → Prop) [DecidablePred S] [DecidablePred L]
    (s : FieldState) (hands : List HandData) (t : ℚ) (hand : HandData)
    (hv : s.isVisible = true) (hdom : dominantHand hands = some hand)
    (hm : s.mode = FieldMode.normal) (hS : ¬ S hand) :
    updateCore S L s hands t = (s, []) := by
  unfold updateCore
  rw [if_pos hv, hdom]
  dsimp only
  rw [hm]
  dsimp only
  rw [if_neg hS]

/-- `moving` + lock gesture: lock the field and emit the bounds once. -/
lemma updateCore_moving_lock (S L : HandData → Prop) [DecidablePred S] [DecidablePred L]
    (s : FieldState) (hands : List HandData) (t : ℚ) (hand : HandData)
    (hv : s.isVisible = true) (hdom : dominantHand hands = some hand)
    (hm : s.mode = FieldMode.moving) (hL : L hand) :
    updateCore S L s hands t
      = ({ s with mode := FieldMode.normal, moveProgress := 0 }, [s.bounds]) := by
  unfold updateCore
  rw [if_pos hv, hdom]
  dsimp only
  rw [hm]
  dsimp only
  rw [if_pos hL]

/-- `moving`, lock gesture absent: re-center on the palm and clamp. -/
lemma updateCore_moving_move (S L : HandData → Prop) [DecidablePred S] [DecidablePred L]
    (s : FieldState) (hands : List HandData) (t : ℚ) (hand : HandData)
    (hv : s.isVisible = true) (hdom : dominantHand hands = some hand)
    (hm : s.mode = FieldMode.moving) (hL : ¬ L hand) :
    updateCore S L s hands t
      = ({ s with
            bounds := movedBounds s hand.palmCenter,
            lastPalmPosition := some (hand.palmCenter.x, hand.palmCenter.y) }, []) := by
  unfold updateCore
  rw [if_pos hv, hdom]
  dsimp only
  rw [hm]
  dsimp only
  rw [if_neg hL]

/-- `update` never changes the screen dimensions, the bounds size, or the
visibility flag. -/
lemma updateCore_frame (S L : HandData → Prop) [DecidablePred S] [DecidablePred L]
    (s : FieldState) (hands : List HandData) (t : ℚ) :
    (updateCore S L s hands t).1.screenWidth = s.screenWidth ∧
    (updateCore S L s hands t).1.screenHeight = s.screenHeight ∧
    (updateCore S L s hands t).1.bounds.width = s.bounds.width ∧
    (updateCore S L s hands t).1.bounds.height = s.bounds.height ∧
    (updateCore S L s hands t).1.isVisible = s.isVisible := by
  unfold updateCore
  repeat' split
  all_goals exact ⟨rfl, rfl, rfl, rfl, rfl⟩

/-- One host operation preserves the frame invariant (resizes carry positive
dimensions). -/
lemma goodDims_applyOp (S L : HandData → Prop) [DecidablePred S] [DecidablePred L]
    (s : FieldState) (op : FieldOp) (hg : GoodDims s) (hop : opDimsPos op) :
    GoodDims (applyOp S L s op) := by
  obtain ⟨h1, h2, h3, h4, h5⟩ := hg
  cases op with
  | upd hands t =>
    obtain ⟨f1, f2, f3, f4, f5⟩ := updateCore_frame S L s hands t
    exact ⟨by rw [show applyOp S L s (FieldOp.upd hands t)
        = (updateCore S L s hands t).1 from rfl, f1]; exact h1,
      by rw [show applyOp S L s (FieldOp.upd hands t)
        = (updateCore S L s hands t).1 from rfl, f2]; exact h2,
      by rw [show applyOp S L s (FieldOp.upd hands t)
        = (updateCore S L s hands t).1 from rfl, f3, f1]; exact h3,
      by rw [show applyOp S L s (FieldOp.upd hands t)
        = (updateCore S L s hands t).1 from rfl, f4, f2]; exact h4,
      by rw [show applyOp S L s (FieldOp.upd hands t)
        = (updateCore S L s hands t).1 from rfl, f5]; exact h5⟩
  | resizeOp w h =>
    obtain ⟨hw, hh⟩ := hop
    have hsw : s.screenWidth ≠ 0 := ne_of_gt h1
    have hsh : s.screenHeight ≠ 0 := ne_of_gt h2
    unfold applyOp resize
    dsimp only
    refine ⟨hw, hh, ?_, ?_, h5⟩
    · show s.bounds.width / s.screenWidth * w = defaultSizeRatio * w
      rw [h3]
      field_simp
    · show s.bounds.height / s.screenHeight * h = defaultSizeRatio * h
      rw [h4]
      field_simp
  | resetOp =>
    unfold applyOp resetToDefault calculateDefaultBounds
    dsimp only
    exact ⟨h1, h2, mul_comm _ _, mul_comm _ _, h5⟩

/-- Folding any list of well-formed operations preserves the frame invariant. -/
lemma goodDims_foldl (S L : HandData → Prop) [DecidablePred S] [DecidablePred L] :
    ∀ (ops : List FieldOp) (s0 : FieldState), GoodDims s0 →
      (∀ op ∈ ops, opDimsPos op) → GoodDims (ops.foldl (applyOp S L) s0) := by
  intro ops
  induction ops with
  | nil =>
    intro s0 hg _
    exact hg
  | cons op rest ih =>
    intro s0 hg hops
    exact ih _ (goodDims_applyOp S L s0 op hg (hops op (List.mem_cons_self op rest)))
      (fun o ho => hops o (List.mem_cons_of_mem op ho))

/-- The constructor establishes the frame invariant. -/
lemma initState_goodDims (w h : ℚ) (hw : 0 < w) (hh : 0 < h) :
    GoodDims (initState w h) := by
  unfold GoodDims initState calculateDefaultBounds
  dsimp only
  exact ⟨hw, hh, mul_comm _ _, mul_comm _ _, rfl⟩

/-- Every reachable state satisfies the frame invariant. -/
lemma reachable_goodDims (S L : HandData → Prop) [DecidablePred S] [DecidablePred L]
    (s : FieldState) (hr : ReachableFrom S L s) : GoodDims s := by
  obtain ⟨w, h, ops, hw, hh, hops, rfl⟩ := hr
  exact goodDims_foldl S L ops (initState w h) (initState_goodDims w h hw hh) hops

/-- C3: in every reachable state (constructed with positive screen dimensions
and transformed by any sequence of update/resize/resetToDefault calls with
positive resize dimensions), if the mode is `moving` and the lock gesture is
not detected on the dominant hand, `update` leaves bounds whose x, right, y
and bottom all lie within [0, screenWidth] × [0, screenHeight] — for every
palm position, including positions far outside the viewport. -/
theorem C3_screen_clamping (S L : HandData → Prop) [DecidablePred S] [DecidablePred L]
    (s : FieldState) (hr : ReachableFrom S L s) (hm : s.mode = FieldMode.moving)
    (hands : List HandData) (t : ℚ) (hd : HandData)
    (hdom : dominantHand hands = some hd) (hL : ¬ L hd) :
    0 ≤ (updateCore S L s hands t).1.bounds.x ∧
    (updateCore S L s hands t).1.bounds.x ≤ (updateCore S L s hands t).1.screenWidth ∧
    0 ≤ (updateCore S L s hands t).1.bounds.right ∧
    (updateCore S L s hands t).1.bounds.right ≤ (updateCore S L s hands t).1.screenWidth ∧
    0 ≤ (updateCore S L s hands t).1.bounds.y ∧
    (updateCore S L s hands t).1.bounds.y ≤ (updateCore S L s hands t).1.screenHeight ∧
    0 ≤ (updateCore S L s hands t).1.bounds.bottom ∧
    (updateCore S L s hands t).1.bounds.bottom
      ≤ (updateCore S L s hands t).1.screenHeight := by
  obtain ⟨hw, hh, hbw, hbh, hvis⟩ := reachable_goodDims S L s hr
  rw [updateCore_moving_move S L s hands t hd hvis hdom hm hL]
  dsimp only
  unfold movedBounds
  dsimp only
  have hwpos : 0 < s.bounds.width := by
    rw [hbw]
    unfold defaultSizeRatio
    linarith
  have hhpos : 0 < s.bounds.height := by
    rw [hbh]
    unfold defaultSizeRatio
    linarith
  have hw5 : 0 < s.screenWidth - s.bounds.width := by
    rw [hbw]
    unfold defaultSizeRatio
    linarith
  have hh5 : 0 < s.screenHeight - s.bounds.height := by
    rw [hbh]
    unfold defaultSizeRatio
    linarith
  have hx0 : 0 ≤ max 0 (min (s.screenWidth - s.bounds.width)
      (hd.palmCenter.x - s.bounds.width / 2)) := le_max_left 0 _
  have hxA : max 0 (min (s.screenWidth - s.bounds.width)
        (hd.palmCenter.x - s.bounds.width / 2))
      ≤ s.screenWidth - s.bounds.width :=
    max_le (le_of_lt hw5) (min_le_left _ _)
  have hy0 : 0 ≤ max 0 (min (s.screenHeight - s.bounds.height)
      (hd.palmCenter.y - s.bounds.height / 2)) := le_max_left 0 _
  have hyA : max 0 (min (s.screenHeight - s.bounds.height)
        (hd.palmCenter.y - s.bounds.height / 2))
      ≤ s.screenHeight - s.bounds.height :=
    max_le (le_of_lt hh5) (min_le_left _ _)
  exact ⟨hx0, by linarith, by linarith, by linarith, hy0, by linarith, by linarith,
    by linarith⟩

/-- C10 (implicit): while the field is hidden, `update` leaves the whole state
(mode, bounds, progress, stored palm position) unchanged and never invokes
the bounds callback, for any hands list and timestamp. -/
theorem C10_hidden_noop (S L : HandData → Prop) [DecidablePred S] [DecidablePred L]
    (s : FieldState) (hands : List HandData) (t : ℚ) (hv : s.isVisible = false) :
    updateCore S L s hands t = (s, []) :=
  updateCore_hidden S L s hands t hv

/-- Witness for C10_hidden_noop: a hidden field state is untouched by an
update with a fist present. -/
theorem C10_hidden_noop_witness :
    updateCore isUpwardFacingFist isOpenHand
        { initState 100 100 with isVisible := false } [fistHand] 7
      = ({ initState 100 100 with isVisible := false }, []) :=
  C10_hidden_noop isUpwardFacingFist isOpenHand
    { initState 100 100 with isVisible := false } [fistHand] 7 rfl

/-- One empty-hands update in `moving` is a perfect no-op. -/
lemma updateCore_emptyHands_moving (S L : HandData → Prop) [DecidablePred S]
    [DecidablePred L] (s : FieldState) (t : ℚ) (hm : s.mode = FieldMode.moving) :
    updateCore S L s [] t = (s, []) := by
  by_cases hv : s.isVisible = true
  · exact updateCore_noHand_moving S L s [] t hv rfl hm
  · exact updateCore_hidden S L s [] t (Bool.not_eq_true s.isVisible ▸ hv)

/-- C5: with mode `moving`, an update with an empty hands list leaves bounds,
mode and progress (indeed the whole state) unchanged and emits nothing, and
the same holds for any number of consecutive empty-hands frames, so a
reappearing hand resumes from the unchanged state. -/
theorem C5_occlusion_freeze (S L : HandData → Prop) [DecidablePred S] [DecidablePred L]
    (s : FieldState) (hm : s.mode = FieldMode.moving) (ts : List ℚ) :
    (∀ t : ℚ, updateCore S L s [] t = (s, [])) ∧
    runFrames S L s (ts.map fun t => ([], t)) = (s, []) := by
  have hstep : ∀ t : ℚ, updateCore S L s [] t = (s, []) := fun t =>
    updateCore_emptyHands_moving S L s t hm
  refine ⟨hstep, ?_⟩
  induction ts with
  | nil => rfl
  | cons t rest ih =>
    simp only [List.map_cons, runFrames]
    rw [hstep t]
    dsimp only
    rw [ih]
    rfl

/-- Witness for C5_occlusion_freeze: a concrete moving state survives three
empty-hands frames untouched. -/
theorem C5_occlusion_freeze_witness :
    runFrames isUpwardFacingFist isOpenHand
        { initState 1000 800 with mode := FieldMode.moving }
        ([5, 10, 15].map fun t => ([], t))
      = ({ initState 1000 800 with mode := FieldMode.moving }, []) :=
  (C5_occlusion_freeze isUpwardFacingFist isOpenHand
    { initState 1000 800 with mode := FieldMode.moving } rfl [5, 10, 15]).2

/-- The synthetic fist satisfies the upward-facing-fist classifier. -/
lemma fistHand_upward : isUpwardFacingFist fistHand := by
  refine ⟨rfl, ?_, ?_, ?_, ?_⟩ <;>
    norm_num +decide [knuckleAvgY, mcpYRangeOf, curledFingerCount, distSq,
      fistLandmarks, fistHand]

/-- The synthetic open hand satisfies the open-hand classifier. -/
lemma openHand_open : isOpenHand openHand := by
  refine ⟨rfl, ?_⟩
  norm_num +decide [extendedFingerCount, distSq, openLandmarks, openHand]

/-- The synthetic palm satisfies the strict front-facing open-palm
classifier. -/
lemma palmHand_valid : isValidOpenPalm palmHand := by
  refine ⟨rfl, rfl, ?_, ?_, ?_, ?_, ?_, ?_, ?_, ?_⟩ <;>
    norm_num +decide [palmHand, palmLandmarks, fingertipZAvg, palmBaseZAvg, thumbSideOk,
      straightFingerCount, fingerStraightCheck, distSq, mcpYRangeOf, mcpZRangeOf]

/-- The synthetic fist is the lock gesture of the part_000 variant. -/
lemma fistHand_lock : isFistFlag fistHand := rfl

/-- The far-away fist is not an open hand (it still has the fist flag). -/
lemma farHand_not_open : ¬ isOpenHand farHand := by
  intro hL
  obtain ⟨hf, _⟩ := hL
  simp [farHand] at hf

/-- An upward-facing fist can never simultaneously be the open-hand lock
gesture. -/
lemma upwardFist_not_open (hd : HandData) (hS : isUpwardFacingFist hd) :
    ¬ isOpenHand hd := by
  intro hL
  obtain ⟨hf, _⟩ := hL
  rw [hS.1] at hf
  exact Bool.noConfusion hf

/-- A strict open palm can never simultaneously be the fist lock gesture. -/
lemma validPalm_not_fist (hd : HandData) (hS : isValidOpenPalm hd) :
    ¬ isFistFlag hd := by
  intro hL
  have hf : hd.isFist = true := hL
  obtain ⟨_, hff, _⟩ := hS
  rw [hf] at hff
  exact Bool.noConfusion hff

/-- A `move-pending` hold across frames that keep the start gesture and stay
strictly below the hold duration remains pending, keeps the start time, and
emits nothing. -/
lemma pendingHold (S L : HandData → Prop) [DecidablePred S] [DecidablePred L] (t0 : ℚ) :
    ∀ (frames : List (List HandData × ℚ)) (s : FieldState),
      s.isVisible = true → s.mode = FieldMode.movePending → s.palmHoldStartTime = t0 →
      (∀ f ∈ frames, ∃ hd, dominantHand f.1 = some hd ∧ S hd) →
      (∀ f ∈ frames, f.2 - t0 < palmHoldDuration) →
      (runFrames S L s frames).2 = [] ∧
      (runFrames S L s frames).1.isVisible = true ∧
      (runFrames S L s frames).1.mode = FieldMode.movePending ∧
      (runFrames S L s frames).1.palmHoldStartTime = t0 := by
  intro frames
  induction frames with
  | nil =>
    intro s h1 h2 h3 _ _
    exact ⟨rfl, h1, h2, h3⟩
  | cons f rest ih =>
    intro s h1 h2 h3 hS hlt
    obtain ⟨hd, hdom, hSd⟩ := hS f (List.mem_cons_self f rest)
    have hdur : ¬ palmHoldDuration ≤ f.2 - s.palmHoldStartTime := by
      rw [h3]
      have := hlt f (List.mem_cons_self f rest)
      linarith
    have hstep := updateCore_pending_hold S L s f.1 f.2 hd h1 hdom h2 hSd hdur
    simp only [runFrames]
    rw [hstep]
    dsimp only
    have hrec := ih
      { s with
        moveProgress := min 1 ((f.2 - s.palmHoldStartTime) / palmHoldDuration),
        lastPalmPosition := some (hd.palmCenter.x, hd.palmCenter.y) }
      h1 h2 h3 (fun g hg => hS g (List.mem_cons_of_mem f hg))
      (fun g hg => hlt g (List.mem_cons_of_mem f hg))
    exact ⟨hrec.1, hrec.2.1, hrec.2.2.1, hrec.2.2.2⟩

/-- C4: from `normal`, a start frame followed by hold frames that keep the
start gesture (all before 3000 ms of hold), then a frame in which the start
gesture is not detected — including an empty hands list — returns the mode to
`normal` with progress 0, and no bounds callback fires at any point of the
cancelled hold. -/
theorem C4_hold_cancellation (S L : HandData → Prop) [DecidablePred S] [DecidablePred L]
    (s0 : FieldState) (hv : s0.isVisible = true) (hm : s0.mode = FieldMode.normal)
    (startHands : List HandData) (t0 : ℚ) (hd0 : HandData)
    (hdom0 : dominantHand startHands = some hd0) (hS0 : S hd0)
    (holdFrames : List (List HandData × ℚ))
    (hSh : ∀ f ∈ holdFrames, ∃ hd, dominantHand f.1 = some hd ∧ S hd)
    (hlt : ∀ f ∈ holdFrames, f.2 - t0 < palmHoldDuration)
    (cancelHands : List HandData) (tc : ℚ)
    (hcancel : dominantHand cancelHands = none ∨
      ∃ hd, dominantHand cancelHands = some hd ∧ ¬ S hd)
    (_hclt : tc - t0 < palmHoldDuration) :
    (updateCore S L
        (runFrames S L (updateCore S L s0 startHands t0).1 holdFrames).1
        cancelHands tc).1.mode = FieldMode.normal ∧
    (updateCore S L
        (runFrames S L (updateCore S L s0 startHands t0).1 holdFrames).1
        cancelHands tc).1.moveProgress = 0 ∧
    (updateCore S L s0 startHands t0).2 = [] ∧
    (runFrames S L (updateCore S L s0 startHands t0).1 holdFrames).2 = [] ∧
    (updateCore S L
        (runFrames S L (updateCore S L s0 startHands t0).1 holdFrames).1
        cancelHands tc).2 = [] := by
  have hstart := updateCore_normal_start S L s0 startHands t0 hd0 hv hdom0 hm hS0
  rw [hstart]
  dsimp only
  obtain ⟨e1, e2, e3, e4⟩ := pendingHold S L t0 holdFrames
    { s0 with
      mode := FieldMode.movePending,
      palmHoldStartTime := t0,
      lastPalmPosition := some (hd0.palmCenter.x, hd0.palmCenter.y) }
    hv rfl rfl hSh hlt
  rcases hcancel with hnone | ⟨hd, hdc, hSc⟩
  · rw [updateCore_noHand_pending S L _ cancelHands tc e2 hnone e3]
    exact ⟨rfl, rfl, rfl, e1, rfl⟩
  · rw [updateCore_pending_cancel S L _ cancelHands tc hd e2 hdc e3 hSc]
    exact ⟨rfl, rfl, rfl, e1, rfl⟩

/-- Witness for C4_hold_cancellation: start a fist hold at t = 0, keep it at
t = 1000, then lose the hand entirely at t = 2000: the hold cancels with no
emission. -/
theorem C4_hold_cancellation_witness :
    (updateCore isUpwardFacingFist isOpenHand
        (runFrames isUpwardFacingFist isOpenHand
          (updateCore isUpwardFacingFist isOpenHand (initState 1000 800) [fistHand] 0).1
          [([fistHand], 1000)]).1
        [] 2000).1.mode = FieldMode.normal ∧
    (updateCore isUpwardFacingFist isOpenHand
        (runFrames isUpwardFacingFist isOpenHand
          (updateCore isUpwardFacingFist isOpenHand (initState 1000 800) [fistHand] 0).1
          [([fistHand], 1000)]).1
        [] 2000).1.moveProgress = 0 ∧
    (updateCore isUpwardFacingFist isOpenHand (initState 1000 800) [fistHand] 0).2 = [] ∧
    (runFrames isUpwardFacingFist isOpenHand
        (updateCore isUpwardFacingFist isOpenHand (initState 1000 800) [fistHand] 0).1
        [([fistHand], 1000)]).2 = [] ∧
    (updateCore isUpwardFacingFist isOpenHand
        (runFrames isUpwardFacingFist isOpenHand
          (updateCore isUpwardFacingFist isOpenHand (initState 1000 800) [fistHand] 0).1
          [([fistHand], 1000)]).1
        [] 2000).2 = [] := by
  exact C4_hold_cancellation isUpwardFacingFist isOpenHand (initState 1000 800) rfl rfl
    [fistHand] 0 fistHand rfl fistHand_upward
    [([fistHand], 1000)]
    (by
      intro f hf
      rcases List.mem_singleton.mp hf with rfl
      exact ⟨fistHand, rfl, fistHand_upward⟩)
    (by
      intro f hf
      rcases List.mem_singleton.mp hf with rfl
      norm_num [palmHoldDuration])
    [] 2000 (Or.inl rfl) (by norm_num [palmHoldDuration])

/-- A state trace always starts with the initial state. -/
lemma stateTrace_head (S L : HandData → Prop) [DecidablePred S] [DecidablePred L]
    (s : FieldState) (frames : List (List HandData × ℚ)) :
    ((stateTrace S L s frames).map FieldState.moveProgress).head?
      = some s.moveProgress := by
  cases frames <;> rfl

/-- `lastTimeFrom` starting at a frame's own timestamp is the timestamp of the
last frame. -/
lemma lastTimeFrom_getLast :
    ∀ (rest : List (List HandData × ℚ)) (f : List HandData × ℚ),
      lastTimeFrom f.2 rest = ((f :: rest).getLast (List.cons_ne_nil f rest)).2 := by
  intro rest
  induction rest with
  | nil =>
    intro f
    rfl
  | cons g gs ih =>
    intro f
    rw [List.getLast_cons (List.cons_ne_nil g gs)]
    exact ih g

/-- The invariant run of a confirmed-or-confirming hold: through frames that
all carry the start gesture, under non-decreasing timestamps, the state stays
`move-pending` with progress `min 1 (elapsed/3000)` until the hold duration is
reached, then stays `moving` with progress 1; nothing is emitted; the start
time is preserved; and the progress trace is monotonically non-decreasing. -/
lemma happyRun (S L : HandData → Prop) [DecidablePred S] [DecidablePred L]
    (hdisj : ∀ hd, S hd → ¬ L hd) (t1 : ℚ) :
    ∀ (frames : List (List HandData × ℚ)) (s : FieldState) (tprev : ℚ),
      s.isVisible = true → s.palmHoldStartTime = t1 →
      ((s.mode = FieldMode.movePending ∧
          s.moveProgress = min 1 ((tprev - t1) / palmHoldDuration) ∧
          tprev - t1 < palmHoldDuration) ∨
        (s.mode = FieldMode.moving ∧ s.moveProgress = 1)) →
      (∀ f ∈ frames, ∃ hd, dominantHand f.1 = some hd ∧ S hd) →
      List.Chain' (· ≤ ·) (tprev :: frames.map Prod.snd) →
      (runFrames S L s frames).2 = [] ∧
      (runFrames S L s frames).1.isVisible = true ∧
      (runFrames S L s frames).1.palmHoldStartTime = t1 ∧
      (((runFrames S L s frames).1.mode = FieldMode.movePending ∧
          (runFrames S L s frames).1.moveProgress
            = min 1 ((lastTimeFrom tprev frames - t1) / palmHoldDuration) ∧
          lastTimeFrom tprev frames - t1 < palmHoldDuration) ∨
        ((runFrames S L s frames).1.mode = FieldMode.moving ∧
          (runFrames S L s frames).1.moveProgress = 1)) ∧
      List.Chain' (· ≤ ·) ((stateTrace S L s frames).map FieldState.moveProgress) := by
  intro frames
  induction frames with
  | nil =>
    intro s tprev h1 h2 hinv _ _
    exact ⟨rfl, h1, h2, hinv, List.chain'_singleton _⟩
  | cons f rest ih =>
    intro s tprev h1 h2 hinv hS hchain
    obtain ⟨hd, hdom, hSd⟩ := hS f (List.mem_cons_self f rest)
    simp only [List.map_cons, List.chain'_cons] at hchain
    have hts : tprev ≤ f.2 := hchain.1
    have hdp : (0 : ℚ) < palmHoldDuration := by norm_num [palmHoldDuration]
    rcases hinv with ⟨hmode, hprog, hlt⟩ | ⟨hmode, hprog⟩
    · by_cases hdur : palmHoldDuration ≤ f.2 - t1
      · have hstep := updateCore_pending_confirm S L s f.1 f.2 hd h1 hdom hmode hSd
          (by rw [h2]; exact hdur)
        have hle : s.moveProgress ≤ 1 := by
          rw [hprog]
          exact min_le_left _ _
        have hrec := ih
          { s with
            mode := FieldMode.moving,
            moveProgress := 1,
            lastPalmPosition := some (hd.palmCenter.x, hd.palmCenter.y) }
          f.2 h1 h2 (Or.inr ⟨rfl, rfl⟩)
          (fun g hg => hS g (List.mem_cons_of_mem f hg)) hchain.2
        simp only [runFrames, stateTrace, List.map_cons]
        rw [hstep]
        dsimp only
        refine ⟨hrec.1, hrec.2.1, hrec.2.2.1, hrec.2.2.2.1, ?_⟩
        rw [List.chain'_cons']
        refine ⟨?_, hrec.2.2.2.2⟩
        intro b hb
        rw [stateTrace_head] at hb
        simp only [Option.mem_def, Option.some.injEq] at hb
        rw [← hb]
        exact hle
      · have hstep := updateCore_pending_hold S L s f.1 f.2 hd h1 hdom hmode hSd
          (by rw [h2]; exact hdur)
        have hmono : min 1 ((tprev - t1) / palmHoldDuration)
            ≤ min 1 ((f.2 - t1) / palmHoldDuration) := by
          apply min_le_min le_rfl
          rw [div_le_div_iff_of_pos_right hdp]
          linarith
        have hrec := ih
          { s with
            moveProgress := min 1 ((f.2 - s.palmHoldStartTime) / palmHoldDuration),
            lastPalmPosition := some (hd.palmCenter.x, hd.palmCenter.y) }
          f.2 h1 h2 (Or.inl ⟨hmode, by rw [h2], not_le.mp hdur⟩)
          (fun g hg => hS g (List.mem_cons_of_mem f hg)) hchain.2
        simp only [runFrames, stateTrace, List.map_cons]
        rw [hstep]
        dsimp only
        refine ⟨hrec.1, hrec.2.1, hrec.2.2.1, hrec.2.2.2.1, ?_⟩
        rw [List.chain'_cons']
        refine ⟨?_, hrec.2.2.2.2⟩
        intro b hb
        rw [stateTrace_head] at hb
        simp only [Option.mem_def, Option.some.injEq] at hb
        rw [← hb, hprog, h2]
        exact hmono
    · have hstep := updateCore_moving_move S L s f.1 f.2 hd h1 hdom hmode (hdisj hd hSd)
      have hrec := ih
        { s with
          bounds := movedBounds s hd.palmCenter,
          lastPalmPosition := some (hd.palmCenter.x, hd.palmCenter.y) }
        f.2 h1 h2 (Or.inr ⟨hmode, hprog⟩)
        (fun g hg => hS g (List.mem_cons_of_mem f hg)) hchain.2
      simp only [runFrames, stateTrace, List.map_cons]
      rw [hstep]
      dsimp only
      refine ⟨hrec.1, hrec.2.1, hrec.2.2.1, hrec.2.2.2.1, ?_⟩
      rw [List.chain'_cons']
      refine ⟨?_, hrec.2.2.2.2⟩
      intro b hb
      rw [stateTrace_head] at hb
      simp only [Option.mem_def, Option.some.injEq] at hb
      rw [← hb]

/-- The full happy path for a generic start/lock gesture pair: a start frame
from `normal`, then frames keeping the start gesture over non-decreasing
timestamps spanning at least the hold duration, reach `moving` with progress
1, monotonically non-decreasing progress and no emission; a subsequent lock
frame returns to `normal` with progress 0, emitting exactly the final bounds
once. -/
lemma happyPathCore (S L : HandData → Prop) [DecidablePred S] [DecidablePred L]
    (hdisj : ∀ hd, S hd → ¬ L hd)
    (s0 : FieldState) (frames : List (List HandData × ℚ)) (hne : frames ≠ [])
    (hv : s0.isVisible = true) (hm : s0.mode = FieldMode.normal)
    (hp : s0.moveProgress = 0)
    (hS : ∀ f ∈ frames, ∃ hd, dominantHand f.1 = some hd ∧ S hd)
    (hchain : List.Chain' (· ≤ ·) (frames.map Prod.snd))
    (hspan : palmHoldDuration ≤ (frames.getLast hne).2 - (frames.head hne).2) :
    (runFrames S L s0 frames).1.mode = FieldMode.moving ∧
    (runFrames S L s0 frames).1.moveProgress = 1 ∧
    (runFrames S L s0 frames).2 = [] ∧
    (runFrames S L s0 frames).1.isVisible = true ∧
    List.Chain' (· ≤ ·) ((stateTrace S L s0 frames).map FieldState.moveProgress) ∧
    (∀ (lockHands : List HandData) (tl : ℚ) (hd : HandData),
      dominantHand lockHands = some hd → L hd →
      (updateCore S L (runFrames S L s0 frames).1 lockHands tl).1.mode
        = FieldMode.normal ∧
      (updateCore S L (runFrames S L s0 frames).1 lockHands tl).1.moveProgress = 0 ∧
      (updateCore S L (runFrames S L s0 frames).1 lockHands tl).2
        = [(runFrames S L s0 frames).1.bounds]) := by
  cases frames with
  | nil => exact absurd rfl hne
  | cons f1 rest =>
    obtain ⟨hd1, hdom1, hS1⟩ := hS f1 (List.mem_cons_self f1 rest)
    have hstep := updateCore_normal_start S L s0 f1.1 f1.2 hd1 hv hdom1 hm hS1
    simp only [List.map_cons] at hchain
    have hprog0 : ({ s0 with
        mode := FieldMode.movePending,
        palmHoldStartTime := f1.2,
        lastPalmPosition := some (hd1.palmCenter.x, hd1.palmCenter.y) }
          : FieldState).moveProgress
        = min 1 ((f1.2 - f1.2) / palmHoldDuration) := by
      show s0.moveProgress = min 1 ((f1.2 - f1.2) / palmHoldDuration)
      rw [hp]
      norm_num [palmHoldDuration, min_def]
    have hlt0 : f1.2 - f1.2 < palmHoldDuration := by
      norm_num [palmHoldDuration]
    have hrec := happyRun S L hdisj f1.2 rest
      { s0 with
        mode := FieldMode.movePending,
        palmHoldStartTime := f1.2,
        lastPalmPosition := some (hd1.palmCenter.x, hd1.palmCenter.y) }
      f1.2 hv rfl
      (Or.inl ⟨rfl, hprog0, hlt0⟩)
      (fun g hg => hS g (List.mem_cons_of_mem f1 hg)) hchain
    have hlast : lastTimeFrom f1.2 rest
        = ((f1 :: rest).getLast (List.cons_ne_nil f1 rest)).2 :=
      lastTimeFrom_getLast rest f1
    simp only [List.head_cons] at hspan
    have hfinal : (runFrames S L { s0 with
          mode := FieldMode.movePending,
          palmHoldStartTime := f1.2,
          lastPalmPosition := some (hd1.palmCenter.x, hd1.palmCenter.y) } rest).1.mode
        = FieldMode.moving ∧
        (runFrames S L { s0 with
          mode := FieldMode.movePending,
          palmHoldStartTime := f1.2,
          lastPalmPosition := some (hd1.palmCenter.x, hd1.palmCenter.y) } rest).1.moveProgress
        = 1 := by
      rcases hrec.2.2.2.1 with ⟨_, _, hlt⟩ | hmov
      · exfalso
        rw [hlast] at hlt
        linarith
      · exact hmov
    simp only [runFrames, stateTrace, List.map_cons]
    rw [hstep]
    dsimp only
    refine ⟨hfinal.1, hfinal.2, hrec.1, hrec.2.1, ?_, ?_⟩
    · rw [List.chain'_cons']
      refine ⟨?_, hrec.2.2.2.2⟩
      intro b hb
      rw [stateTrace_head] at hb
      simp only [Option.mem_def, Option.some.injEq] at hb
      rw [← hb]
    · intro lockHands tl hd hdoml hLl
      rw [updateCore_moving_lock S L _ lockHands tl hd hrec.2.1 hdoml hfinal.1 hLl]
      exact ⟨rfl, rfl, rfl⟩

/-- C1: field state machine happy path, for both source variants — starting
from `normal` with progress 0, frames carrying the start gesture
(upward-facing fist in playingField.ts; strict front-facing open palm in the
part_000 variant) over monotonically non-decreasing timestamps spanning at
least 3000 ms bring the mode to `moving` with progress 1, with progress
monotonically non-decreasing and no callback; a subsequent frame carrying the
lock gesture (open hand, resp. fist) returns the mode to `normal`, resets
progress to 0, and invokes `onBoundsChanged` exactly once with the last
computed bounds. -/
theorem C1_happy_path :
    (∀ (s0 : FieldState) (frames : List (List HandData × ℚ)) (hne : frames ≠ []),
      s0.isVisible = true → s0.mode = FieldMode.normal → s0.moveProgress = 0 →
      (∀ f ∈ frames, ∃ hd, dominantHand f.1 = some hd ∧ isUpwardFacingFist hd) →
      List.Chain' (· ≤ ·) (frames.map Prod.snd) →
      palmHoldDuration ≤ (frames.getLast hne).2 - (frames.head hne).2 →
      (runFrames isUpwardFacingFist isOpenHand s0 frames).1.mode = FieldMode.moving ∧
      (runFrames isUpwardFacingFist isOpenHand s0 frames).1.moveProgress = 1 ∧
      (runFrames isUpwardFacingFist isOpenHand s0 frames).2 = [] ∧
      List.Chain' (· ≤ ·) ((stateTrace isUpwardFacingFist isOpenHand s0 frames).map
        FieldState.moveProgress) ∧
      (∀ (lockHands : List HandData) (tl : ℚ) (hd : HandData),
        dominantHand lockHands = some hd → isOpenHand hd →
        (updateCore isUpwardFacingFist isOpenHand
            (runFrames isUpwardFacingFist isOpenHand s0 frames).1 lockHands tl).1.mode
          = FieldMode.normal ∧
        (updateCore isUpwardFacingFist isOpenHand
            (runFrames isUpwardFacingFist isOpenHand s0 frames).1 lockHands tl).1.moveProgress
          = 0 ∧
        (updateCore isUpwardFacingFist isOpenHand
            (runFrames isUpwardFacingFist isOpenHand s0 frames).1 lockHands tl).2
          = [(runFrames isUpwardFacingFist isOpenHand s0 frames).1.bounds])) ∧
    (∀ (s0 : FieldState) (frames : List (List HandData × ℚ)) (hne : frames ≠ []),
      s0.isVisible = true → s0.mode = FieldMode.normal → s0.moveProgress = 0 →
      (∀ f ∈ frames, ∃ hd, dominantHand f.1 = some hd ∧ isValidOpenPalm hd) →
      List.Chain' (· ≤ ·) (frames.map Prod.snd) →
      palmHoldDuration ≤ (frames.getLast hne).2 - (frames.head hne).2 →
      (runFrames isValidOpenPalm isFistFlag s0 frames).1.mode = FieldMode.moving ∧
      (runFrames isValidOpenPalm isFistFlag s0 frames).1.moveProgress = 1 ∧
      (runFrames isValidOpenPalm isFistFlag s0 frames).2 = [] ∧
      List.Chain' (· ≤ ·) ((stateTrace isValidOpenPalm isFistFlag s0 frames).map
        FieldState.moveProgress) ∧
      (∀ (lockHands : List HandData) (tl : ℚ) (hd : HandData),
        dominantHand lockHands = some hd → isFistFlag hd →
        (updateCore isValidOpenPalm isFistFlag
            (runFrames isValidOpenPalm isFistFlag s0 frames).1 lockHands tl).1.mode
          = FieldMode.normal ∧
        (updateCore isValidOpenPalm isFistFlag
            (runFrames isValidOpenPalm isFistFlag s0 frames).1 lockHands tl).1.moveProgress
          = 0 ∧
        (updateCore isValidOpenPalm isFistFlag
            (runFrames isValidOpenPalm isFistFlag s0 frames).1 lockHands tl).2
          = [(runFrames isValidOpenPalm isFistFlag s0 frames).1.bounds])) := by
  constructor
  · intro s0 frames hne h1 h2 h3 h4 h5 h6
    obtain ⟨c1, c2, c3, _, c5, c6⟩ :=
      happyPathCore isUpwardFacingFist isOpenHand upwardFist_not_open
        s0 frames hne h1 h2 h3 h4 h5 h6
    exact ⟨c1, c2, c3, c5, c6⟩
  · intro s0 frames hne h1 h2 h3 h4 h5 h6
    obtain ⟨c1, c2, c3, _, c5, c6⟩ :=
      happyPathCore isValidOpenPalm isFistFlag validPalm_not_fist
        s0 frames hne h1 h2 h3 h4 h5 h6
    exact ⟨c1, c2, c3, c5, c6⟩

/-- Witness for C1_happy_path: from a fresh 1000×800 field, an upward fist at
t = 0 and t = 3000 reaches `moving` with progress 1 and no emission, and an
open hand at t = 3100 locks, emitting the current bounds exactly once. -/
theorem C1_happy_path_witness :
    (runFrames isUpwardFacingFist isOpenHand (initState 1000 800)
        [([fistHand], 0), ([fistHand], 3000)]).1.mode = FieldMode.moving ∧
    (runFrames isUpwardFacingFist isOpenHand (initState 1000 800)
        [([fistHand], 0), ([fistHand], 3000)]).1.moveProgress = 1 ∧
    (runFrames isUpwardFacingFist isOpenHand (initState 1000 800)
        [([fistHand], 0), ([fistHand], 3000)]).2 = [] ∧
    (updateCore isUpwardFacingFist isOpenHand
        (runFrames isUpwardFacingFist isOpenHand (initState 1000 800)
          [([fistHand], 0), ([fistHand], 3000)]).1 [openHand] 3100).2
      = [(runFrames isUpwardFacingFist isOpenHand (initState 1000 800)
          [([fistHand], 0), ([fistHand], 3000)]).1.bounds] := by
  have h := C1_happy_path.1 (initState 1000 800) [([fistHand], 0), ([fistHand], 3000)]
    (by simp) rfl rfl rfl
    (by
      intro f hf
      rcases List.mem_cons.mp hf with rfl | hf2
      · exact ⟨fistHand, rfl, fistHand_upward⟩
      · rcases List.mem_singleton.mp hf2 with rfl
        exact ⟨fistHand, rfl, fistHand_upward⟩)
    (by
      simp only [List.map_cons, List.map_nil]
      exact List.chain'_cons.mpr ⟨by norm_num, List.chain'_singleton _⟩)
    (by
      simp only [List.getLast, List.head_cons]
      norm_num [palmHoldDuration])
  obtain ⟨hm, hp, he, _, hlock⟩ := h
  obtain ⟨_, _, lemit⟩ := hlock [openHand] 3100 openHand rfl openHand_open
  exact ⟨hm, hp, he, lemit⟩

/-- Witness for C3_screen_clamping: in the concrete reachable `moving` state,
an update with the palm at (99999, −50000) still yields clamped bounds. -/
theorem C3_screen_clamping_witness :
    0 ≤ (updateCore isUpwardFacingFist isOpenHand reachedMoving [farHand] 5000).1.bounds.x ∧
    (updateCore isUpwardFacingFist isOpenHand reachedMoving [farHand] 5000).1.bounds.x
      ≤ (updateCore isUpwardFacingFist isOpenHand reachedMoving [farHand] 5000).1.screenWidth ∧
    0 ≤ (updateCore isUpwardFacingFist isOpenHand reachedMoving [farHand] 5000).1.bounds.right ∧
    (updateCore isUpwardFacingFist isOpenHand reachedMoving [farHand] 5000).1.bounds.right
      ≤ (updateCore isUpwardFacingFist isOpenHand reachedMoving [farHand] 5000).1.screenWidth ∧
    0 ≤ (updateCore isUpwardFacingFist isOpenHand reachedMoving [farHand] 5000).1.bounds.y ∧
    (updateCore isUpwardFacingFist isOpenHand reachedMoving [farHand] 5000).1.bounds.y
      ≤ (updateCore isUpwardFacingFist isOpenHand reachedMoving [farHand] 5000).1.screenHeight ∧
    0 ≤ (updateCore isUpwardFacingFist isOpenHand reachedMoving [farHand] 5000).1.bounds.bottom ∧
    (updateCore isUpwardFacingFist isOpenHand reachedMoving [farHand] 5000).1.bounds.bottom
      ≤ (updateCore isUpwardFacingFist isOpenHand reachedMoving [farHand] 5000).1.screenHeight := by
  have heq : reachedMoving = { initState 1000 800 with
      mode := FieldMode.moving,
      moveProgress := 1,
      lastPalmPosition := some (fistHand.palmCenter.x, fistHand.palmCenter.y) } := by
    unfold reachedMoving
    simp only [List.foldl]
    dsimp only [applyOp]
    rw [updateCore_normal_start isUpwardFacingFist isOpenHand (initState 1000 800)
      [fistHand] 0 fistHand rfl rfl rfl fistHand_upward]
    dsimp only
    rw [updateCore_pending_confirm isUpwardFacingFist isOpenHand
      { initState 1000 800 with
        mode := FieldMode.movePending,
        palmHoldStartTime := 0,
        lastPalmPosition := some (fistHand.palmCenter.x, fistHand.palmCenter.y) }
      [fistHand] 3000 fistHand rfl rfl rfl fistHand_upward
      (by norm_num [palmHoldDuration, initState])]
    rfl
  have hmode : reachedMoving.mode = FieldMode.moving := by
    rw [heq]
  have hr : ReachableFrom isUpwardFacingFist isOpenHand reachedMoving :=
    ⟨1000, 800, [FieldOp.upd [fistHand] 0, FieldOp.upd [fistHand] 3000],
      by norm_num, by norm_num,
      by
        intro op hop
        rcases List.mem_cons.mp hop with rfl | hop2
        · trivial
        · rcases List.mem_singleton.mp hop2 with rfl
          trivial,
      rfl⟩
  exact C3_screen_clamping isUpwardFacingFist isOpenHand reachedMoving hr hmode
    [farHand] 5000 farHand rfl farHand_not_open

end FFL
